import Mathlib

namespace Selune

set_option maxHeartbeats 2000000

set_option maxRecDepth 8000

/-- Gregorian leap-year test, as date-fns `isLeapYear` computes it. -/
def isLeapYear (y : Int) : Bool :=
  y % 4 == 0 && (y % 100 != 0 || y % 400 == 0)

/-- Number of days in month `m` (1-12) of year `y`, as date-fns `getDaysInMonth`. -/
def daysInMonth (y m : Int) : Int :=
  if m = 2 then (if isLeapYear y then 29 else 28)
  else if m = 4 ∨ m = 6 ∨ m = 9 ∨ m = 11 then 30
  else 31

/-- Day number (days since 1970-01-01) of day `doy` of the shifted (March-based)
year `sy`; proleptic Gregorian calendar. -/
def shiftedToDay (sy doy : Int) : Int :=
  146097 * (sy / 400) + 365 * (sy % 400) + (sy % 400) / 4 - (sy % 400) / 100
    + doy - 719468

/-- Shifted (March-based) year of a day number; inverse of `shiftedToDay`. -/
def shiftedYearOf (n : Int) : Int :=
  (n + 719468) / 146097 * 400 +
    100 * ((4 * ((n + 719468) % 146097) + 3) / 146097) +
    (4 * ((4 * ((n + 719468) % 146097) + 3) % 146097 / 4) + 3) / 1461

/-- Day-of-shifted-year of a day number; companion of `shiftedYearOf`. -/
def shiftedDoyOf (n : Int) : Int :=
  (4 * ((4 * ((n + 719468) % 146097) + 3) % 146097 / 4) + 3) % 1461 / 4

/-- The shifted year `sy` (running March..February) ends with a Feb 29. -/
def shiftedLeap (sy : Int) : Prop :=
  (sy + 1) % 4 = 0 ∧ ((sy + 1) % 100 ≠ 0 ∨ (sy + 1) % 400 = 0)

instance (sy : Int) : Decidable (shiftedLeap sy) := by
  unfold shiftedLeap; infer_instance

theorem century_split (doe : Int) (_h1 : 0 ≤ doe) (h2 : doe ≤ 146096) :
    0 ≤ (4 * doe + 3) / 146097 ∧ (4 * doe + 3) / 146097 ≤ 3 ∧
    0 ≤ ((4 * doe + 3) % 146097) / 4 ∧ ((4 * doe + 3) % 146097) / 4 ≤ 36524 ∧
    doe = 36524 * ((4 * doe + 3) / 146097) + ((4 * doe + 3) % 146097) / 4 ∧
    (((4 * doe + 3) % 146097) / 4 = 36524 → (4 * doe + 3) / 146097 = 3) := by
  omega

theorem century_split_inv (c r : Int) (h1 : 0 ≤ c) (h2 : c ≤ 3) (h3 : 0 ≤ r)
    (h4 : r ≤ 36524) (h5 : r = 36524 → c = 3) :
    (4 * (36524 * c + r) + 3) / 146097 = c ∧
    ((4 * (36524 * c + r) + 3) % 146097) / 4 = r := by
  interval_cases c <;> omega

theorem yearOfCentury_split (r : Int) (h1 : 0 ≤ r) (h2 : r ≤ 36524) :
    0 ≤ (4 * r + 3) / 1461 ∧ (4 * r + 3) / 1461 ≤ 99 ∧
    0 ≤ ((4 * r + 3) % 1461) / 4 ∧ ((4 * r + 3) % 1461) / 4 ≤ 365 ∧
    r = 365 * ((4 * r + 3) / 1461) + ((4 * r + 3) / 1461) / 4
        + ((4 * r + 3) % 1461) / 4 ∧
    (((4 * r + 3) % 1461) / 4 = 365 → ((4 * r + 3) / 1461) % 4 = 3) ∧
    (r = 36524 → (4 * r + 3) / 1461 = 99) := by
  omega

theorem yearOfCentury_split_inv (zc doy : Int) (h1 : 0 ≤ zc) (h2 : zc ≤ 99)
    (h3 : 0 ≤ doy) (h4 : doy ≤ 365) (h5 : doy = 365 → zc % 4 = 3) :
    (4 * (365 * zc + zc / 4 + doy) + 3) / 1461 = zc ∧
    ((4 * (365 * zc + zc / 4 + doy) + 3) % 1461) / 4 = doy := by
  have h6 : zc % 4 = 0 ∨ zc % 4 = 1 ∨ zc % 4 = 2 ∨ zc % 4 = 3 := by omega
  rcases h6 with h | h | h | h <;> omega

theorem quarters_of_yoe (sy : Int) :
    sy % 400 / 4 = 25 * (sy % 400 / 100) + sy % 400 % 100 / 4 := by
  omega

theorem shiftedYearOf_shiftedToDay (sy doy : Int) (h1 : 0 ≤ doy) (h2 : doy ≤ 365)
    (h3 : doy = 365 → shiftedLeap sy) :
    shiftedYearOf (shiftedToDay sy doy) = sy ∧
    shiftedDoyOf (shiftedToDay sy doy) = doy := by
  unfold shiftedLeap at h3
  have hq := quarters_of_yoe sy
  have hera : (shiftedToDay sy doy + 719468) / 146097 = sy / 400 := by
    unfold shiftedToDay; omega
  have hdoe : (shiftedToDay sy doy + 719468) % 146097 =
      36524 * (sy % 400 / 100) +
        (365 * (sy % 400 % 100) + sy % 400 % 100 / 4 + doy) := by
    unfold shiftedToDay; omega
  have hS2 := century_split_inv (sy % 400 / 100)
    (365 * (sy % 400 % 100) + sy % 400 % 100 / 4 + doy)
    (by omega) (by omega) (by omega) (by omega) (by omega)
  have hS3 := yearOfCentury_split_inv (sy % 400 % 100) doy
    (by omega) (by omega) h1 h2 (by omega)
  unfold shiftedYearOf shiftedDoyOf
  rw [hera, hdoe, hS2.1, hS2.2, hS3.1, hS3.2]
  omega

theorem shiftedOfDay_spec (n : Int) :
    0 ≤ shiftedDoyOf n ∧ shiftedDoyOf n ≤ 365 ∧
    (shiftedDoyOf n = 365 → shiftedLeap (shiftedYearOf n)) ∧
    shiftedToDay (shiftedYearOf n) (shiftedDoyOf n) = n := by
  have hdoe : 0 ≤ (n + 719468) % 146097 ∧ (n + 719468) % 146097 ≤ 146096 := by
    omega
  have hS2 := century_split ((n + 719468) % 146097) hdoe.1 hdoe.2
  have hS3 := yearOfCentury_split (((4 * ((n + 719468) % 146097) + 3) % 146097) / 4)
    hS2.2.2.1 hS2.2.2.2.1
  have hsplit : ∀ era c zc : Int, 0 ≤ c → c ≤ 3 → 0 ≤ zc → zc ≤ 99 →
      (era * 400 + 100 * c + zc) / 400 = era ∧
      (era * 400 + 100 * c + zc) % 400 / 100 = c ∧
      (era * 400 + 100 * c + zc) % 400 % 100 = zc ∧
      (era * 400 + 100 * c + zc) % 400 / 4 = 25 * c + zc / 4 := by
    intro era c zc ha hb hc hd
    refine ⟨by omega, by omega, by omega, by omega⟩
  have hs := hsplit ((n + 719468) / 146097)
    ((4 * ((n + 719468) % 146097) + 3) / 146097)
    ((4 * ((4 * ((n + 719468) % 146097) + 3) % 146097 / 4) + 3) / 1461)
    hS2.1 hS2.2.1 hS3.1 hS3.2.1
  unfold shiftedLeap shiftedToDay shiftedYearOf shiftedDoyOf
  unfold shiftedYearOf at hs
  omega

/-- Day number (days since 1970-01-01) of the civil date (y, m, d). Models
ECMAScript MakeDay on the proleptic Gregorian calendar. -/
def toDays (y m d : Int) : Int :=
  shiftedToDay (if m ≤ 2 then y - 1 else y) ((153 * ((m + 9) % 12) + 2) / 5 + d - 1)

/-- Civil month (1-12) of a day number; models ECMAScript MonthFromTime (+1). -/
def monthOf (n : Int) : Int :=
  (5 * shiftedDoyOf n + 2) / 153 + (if (5 * shiftedDoyOf n + 2) / 153 < 10 then 3 else -9)

/-- Civil year of a day number; models ECMAScript YearFromTime. -/
def civilYearOf (n : Int) : Int :=
  shiftedYearOf n + (if monthOf n ≤ 2 then 1 else 0)

/-- Civil day-of-month (1-31) of a day number; models ECMAScript DateFromTime. -/
def dayOfMonthOf (n : Int) : Int :=
  shiftedDoyOf n - (153 * ((5 * shiftedDoyOf n + 2) / 153) + 2) / 5 + 1

theorem isLeapYear_spec (y : Int) :
    isLeapYear y = true ↔ (y % 4 = 0 ∧ (y % 100 ≠ 0 ∨ y % 400 = 0)) := by
  simp [isLeapYear]

theorem daysInMonth_feb (y : Int) :
    daysInMonth y 2 = if y % 4 = 0 ∧ (y % 100 ≠ 0 ∨ y % 400 = 0) then 29 else 28 := by
  have h := isLeapYear_spec y
  unfold daysInMonth
  rw [if_pos rfl]
  by_cases hc : y % 4 = 0 ∧ (y % 100 ≠ 0 ∨ y % 400 = 0)
  · rw [if_pos hc, h.mpr hc]
    norm_num
  · rw [if_neg hc]
    have hf : isLeapYear y = false := by
      rcases Bool.eq_false_or_eq_true (isLeapYear y) with hb | hb
      · exact absurd (h.mp hb) hc
      · exact hb
    rw [hf]
    norm_num

theorem daysInMonth_ne2 (y m : Int) (h : m ≠ 2) :
    daysInMonth y m = if m = 4 ∨ m = 6 ∨ m = 9 ∨ m = 11 then 30 else 31 := by
  unfold daysInMonth
  rw [if_neg h]

theorem toDays_toCivil (n : Int) :
    toDays (civilYearOf n) (monthOf n) (dayOfMonthOf n) = n := by
  have H := shiftedOfDay_spec n
  have hA : (if monthOf n ≤ 2 then civilYearOf n - 1 else civilYearOf n) =
      shiftedYearOf n := by
    unfold civilYearOf
    split_ifs <;> omega
  have hB : (153 * ((monthOf n + 9) % 12) + 2) / 5 + dayOfMonthOf n - 1 =
      shiftedDoyOf n := by
    unfold monthOf dayOfMonthOf
    split_ifs <;> omega
  unfold toDays
  rw [hA, hB]
  exact H.2.2.2

theorem toCivil_bounds (n : Int) :
    1 ≤ monthOf n ∧ monthOf n ≤ 12 ∧ 1 ≤ dayOfMonthOf n ∧
    dayOfMonthOf n ≤ daysInMonth (civilYearOf n) (monthOf n) := by
  have H := shiftedOfDay_spec n
  unfold shiftedLeap at H
  have h1 : 1 ≤ monthOf n ∧ monthOf n ≤ 12 := by
    unfold monthOf; constructor <;> (split_ifs <;> omega)
  have h2 : 1 ≤ dayOfMonthOf n := by
    unfold dayOfMonthOf; omega
  refine ⟨h1.1, h1.2, h2, ?_⟩
  by_cases hm2 : monthOf n = 2
  · have hy : civilYearOf n = shiftedYearOf n + 1 := by
      unfold civilYearOf
      rw [if_pos (by omega)]
    rw [hm2, hy, daysInMonth_feb]
    have hmp11 : (5 * shiftedDoyOf n + 2) / 153 = 11 := by
      unfold monthOf at hm2
      split_ifs at hm2 <;> omega
    split_ifs with hleapc
    · unfold dayOfMonthOf
      omega
    · unfold dayOfMonthOf
      omega
  · rw [daysInMonth_ne2 _ _ hm2]
    unfold monthOf at hm2 ⊢
    unfold dayOfMonthOf
    split_ifs at * <;> omega

theorem toDays_lin (y m d k : Int) : toDays y m (d + k) = toDays y m d + k := by
  unfold toDays shiftedToDay
  split_ifs <;> omega

theorem shiftedToDay_succ (sy doy : Int) :
    shiftedToDay (sy + 1) doy
      = shiftedToDay sy (doy + 365 + (if shiftedLeap sy then 1 else 0)) := by
  unfold shiftedToDay shiftedLeap
  split_ifs with h
  · omega
  · omega

/-- Length of civil year `y`: Jan 1 of `y+1` is 365/366 days after Jan 1 of `y`. -/
theorem year_length (y : Int) :
    toDays (y + 1) 1 1 = toDays y 1 1 + (if isLeapYear y = true then 366 else 365) := by
  have h := isLeapYear_spec y
  have hs := shiftedToDay_succ (y - 1) 306
  norm_num at hs
  unfold toDays
  norm_num
  rw [hs]
  by_cases hl : shiftedLeap (y - 1)
  · rw [if_pos hl]
    unfold shiftedLeap at hl
    rw [h.mpr (by omega), if_pos rfl]
    unfold shiftedToDay
    omega
  · rw [if_neg hl]
    unfold shiftedLeap at hl
    have hf : isLeapYear y = false := by
      rcases Bool.eq_false_or_eq_true (isLeapYear y) with hb | hb
      · exact absurd (h.mp hb) (by omega)
      · exact hb
    rw [hf]
    norm_num
    unfold shiftedToDay
    omega

/-- First day of the next month: `toDays y m (daysInMonth y m) + 1`. -/
theorem month_end_succ (y m : Int) (hm1 : 1 ≤ m) (hm2 : m ≤ 11) :
    toDays y (m + 1) 1 = toDays y m (daysInMonth y m) + 1 := by
  have h := isLeapYear_spec y
  have hfeb := daysInMonth_feb y
  interval_cases m <;> (try rw [hfeb]) <;>
    simp only [toDays, daysInMonth, shiftedToDay] <;> norm_num <;>
    first
      | omega
      | (split_ifs <;> omega)

theorem dec31_succ (y : Int) : toDays (y + 1) 1 1 = toDays y 12 31 + 1 := by
  unfold toDays shiftedToDay
  norm_num
  omega

/-- Any day number lies between Jan 1 and Dec 31 of its civil year. -/
theorem civilYear_span (n : Int) :
    toDays (civilYearOf n) 1 1 ≤ n ∧ n ≤ toDays (civilYearOf n) 12 31 := by
  have H := toDays_toCivil n
  have HB := toCivil_bounds n
  rcases HB with ⟨hm1, hm2, hd1, hd2⟩
  have hup : ∀ m d : Int, 1 ≤ m → m ≤ 12 → d ≤ daysInMonth (civilYearOf n) m →
      toDays (civilYearOf n) m d ≤ toDays (civilYearOf n) 12 31 := by
    intro m d h1 h2 h3
    have hle := isLeapYear_spec (civilYearOf n)
    interval_cases m <;>
      (unfold toDays shiftedToDay daysInMonth at * <;> norm_num at * <;>
        split_ifs at * <;> omega)
  have hdn : ∀ m d : Int, 1 ≤ m → m ≤ 12 → 1 ≤ d →
      toDays (civilYearOf n) 1 1 ≤ toDays (civilYearOf n) m d := by
    intro m d h1 h2 h3
    interval_cases m <;>
      (unfold toDays shiftedToDay at * <;> norm_num at * <;> omega)
  constructor
  · calc toDays (civilYearOf n) 1 1
        ≤ toDays (civilYearOf n) (monthOf n) (dayOfMonthOf n) := hdn _ _ hm1 hm2 hd1
      _ = n := H
  · calc n = toDays (civilYearOf n) (monthOf n) (dayOfMonthOf n) := H.symm
      _ ≤ toDays (civilYearOf n) 12 31 := hup _ _ hm1 hm2 hd2

/-- ECMAScript Day(t): day number of a millisecond timestamp. -/
def jsDay (t : Int) : Int := t / 86400000

/-- ECMAScript TimeWithinDay(t). -/
def msWithinDay (t : Int) : Int := t % 86400000

/-- ECMAScript WeekDay (0 = Sunday .. 6 = Saturday); models JS `getDay`. -/
def getDayJS (t : Int) : Int := (jsDay t + 4) % 7

/-- JS `getFullYear`. -/
def getFullYear (t : Int) : Int := civilYearOf (jsDay t)

/-- JS `getMonth` (0-indexed month). -/
def getMonthJS (t : Int) : Int := monthOf (jsDay t) - 1

/-- JS `getDate` (day of month). -/
def getDate (t : Int) : Int := dayOfMonthOf (jsDay t)

/-- ECMAScript MakeDay proper: month index and day are normalized linearly on
the proleptic Gregorian calendar. This is the operation behind the setters
`setDate`/`setMonth`/`setFullYear`, which take the year as is; the Date
constructor's legacy two-digit-year remap is applied separately in `mkDate`. -/
def jsMakeDay (y mIdx d : Int) : Int :=
  toDays ((y * 12 + mIdx) / 12) ((y * 12 + mIdx) % 12 + 1) 1 + (d - 1)

/-- `new Date(y, mIdx, d)` at local midnight, as a millisecond timestamp. The
constructor first applies the ECMAScript two-digit-year remap (a year
argument 0..99 stands for 1900+y), then MakeDay. -/
def mkDate (y mIdx d : Int) : Int :=
  jsMakeDay (if 0 ≤ y ∧ y ≤ 99 then 1900 + y else y) mIdx d * 86400000

/-- Outside the two-digit range the constructor builds the plain MakeDay date. -/
theorem mkDate_no_remap (y mIdx d : Int) (h : ¬(0 ≤ y ∧ y ≤ 99)) :
    mkDate y mIdx d = jsMakeDay y mIdx d * 86400000 := by
  unfold mkDate
  rw [if_neg h]

/-- `t.setHours(h, mi, s, ms)`. -/
def jsSetHours (t h mi s ms : Int) : Int :=
  jsDay t * 86400000 + h * 3600000 + mi * 60000 + s * 1000 + ms

/-- `t.setDate(d)`: replace the day-of-month, keeping the time of day. -/
def jsSetDate (t d : Int) : Int :=
  jsMakeDay (getFullYear t) (getMonthJS t) d * 86400000 + msWithinDay t

/-- `t.setMonth(m)`: replace the (0-indexed) month, keeping day and time. -/
def jsSetMonth (t m : Int) : Int :=
  jsMakeDay (getFullYear t) m (getDate t) * 86400000 + msWithinDay t

/-- `t.setFullYear(y, m, d)`. -/
def jsSetFullYear (t y m d : Int) : Int :=
  jsMakeDay y m d * 86400000 + msWithinDay t

theorem jsMakeDay_eq (y mIdx d : Int) (h0 : 0 ≤ mIdx) (h1 : mIdx ≤ 11) :
    jsMakeDay y mIdx d = toDays y (mIdx + 1) 1 + (d - 1) := by
  unfold jsMakeDay
  rw [show (y * 12 + mIdx) / 12 = y by omega, show (y * 12 + mIdx) % 12 = mIdx by omega]

/-- `t.setDate(t.getDate() + k)` advances the timestamp by exactly `k` days. -/
theorem jsSetDate_add (t k : Int) :
    jsSetDate t (getDate t + k) = t + k * 86400000 := by
  have HB := toCivil_bounds (jsDay t)
  have HR := toDays_toCivil (jsDay t)
  unfold jsSetDate getFullYear getMonthJS getDate
  rw [jsMakeDay_eq _ _ _ (by omega) (by omega)]
  rw [show monthOf (jsDay t) - 1 + 1 = monthOf (jsDay t) by ring]
  have hlin1 : toDays (civilYearOf (jsDay t)) (monthOf (jsDay t)) (dayOfMonthOf (jsDay t))
      = toDays (civilYearOf (jsDay t)) (monthOf (jsDay t)) 1
        + (dayOfMonthOf (jsDay t) - 1) := by
    have h := toDays_lin (civilYearOf (jsDay t)) (monthOf (jsDay t)) 1
      (dayOfMonthOf (jsDay t) - 1)
    rw [show 1 + (dayOfMonthOf (jsDay t) - 1) = dayOfMonthOf (jsDay t) by ring] at h
    omega
  unfold jsDay msWithinDay
  unfold jsDay at hlin1 HR
  omega

/-- date-fns `startOfWeek` with weekStartsOn = 1, on day numbers: the Monday
on or before day `n` (midnight). -/
def startOfISOWeekD (n : Int) : Int :=
  n - ((if (n + 4) % 7 < 1 then 7 else 0) + (n + 4) % 7 - 1)

/-- date-fns `getISOWeekYear` of a timestamp. -/
def getISOWeekYear (t : Int) : Int :=
  if startOfISOWeekD (toDays (getFullYear t + 1) 1 4) * 86400000 ≤ t then
    getFullYear t + 1
  else if startOfISOWeekD (toDays (getFullYear t) 1 4) * 86400000 ≤ t then
    getFullYear t
  else getFullYear t - 1

/-- date-fns `startOfISOWeekYear`, as a day number. -/
def startOfISOWeekYearD (t : Int) : Int :=
  startOfISOWeekD (toDays (getISOWeekYear t) 1 4)

/-- date-fns `getISOWeek`: 1-based ISO week index; the millisecond difference
between the two week starts is an exact multiple of a week, so exact division
on day numbers models the rounded division of the source. -/
def getISOWeek (t : Int) : Int :=
  (startOfISOWeekD (jsDay t) - startOfISOWeekYearD t) / 7 + 1

theorem sow_facts (n : Int) :
    startOfISOWeekD n ≤ n ∧ n ≤ startOfISOWeekD n + 6 ∧ startOfISOWeekD n % 7 = 4 := by
  unfold startOfISOWeekD
  split_ifs <;> omega

theorem year_length_bounds (y : Int) :
    365 ≤ toDays (y + 1) 1 1 - toDays y 1 1 ∧
    toDays (y + 1) 1 1 - toDays y 1 1 ≤ 366 := by
  have h := year_length y
  split_ifs at h <;> omega

theorem isoWeekYear_bracket (t : Int) :
    startOfISOWeekYearD t ≤ jsDay t ∧
    jsDay t < startOfISOWeekD (toDays (getISOWeekYear t + 1) 1 4) ∧
    startOfISOWeekYearD t % 7 = 4 := by
  have hspan : toDays (getFullYear t) 1 1 ≤ jsDay t ∧
      jsDay t ≤ toDays (getFullYear t) 12 31 := civilYear_span (jsDay t)
  have hyl1 := year_length_bounds (getFullYear t - 1)
  have hyl2 := year_length_bounds (getFullYear t)
  have hyl3 := year_length_bounds (getFullYear t + 1)
  have hl1 : toDays (getFullYear t - 1) 1 4 = toDays (getFullYear t - 1) 1 1 + 3 := by
    have h := toDays_lin (getFullYear t - 1) 1 1 3; norm_num at h; omega
  have hl2 : toDays (getFullYear t) 1 4 = toDays (getFullYear t) 1 1 + 3 := by
    have h := toDays_lin (getFullYear t) 1 1 3; norm_num at h; omega
  have hl3 : toDays (getFullYear t + 1) 1 4 = toDays (getFullYear t + 1) 1 1 + 3 := by
    have h := toDays_lin (getFullYear t + 1) 1 1 3; norm_num at h; omega
  have hl4 : toDays (getFullYear t + 2) 1 4 = toDays (getFullYear t + 2) 1 1 + 3 := by
    have h := toDays_lin (getFullYear t + 2) 1 1 3; norm_num at h; omega
  have hs1 := sow_facts (toDays (getFullYear t - 1) 1 4)
  have hs2 := sow_facts (toDays (getFullYear t) 1 4)
  have hs3 := sow_facts (toDays (getFullYear t + 1) 1 4)
  have hs4 := sow_facts (toDays (getFullYear t + 2) 1 4)
  have hy12 : toDays (getFullYear t - 1 + 1) 1 1 = toDays (getFullYear t) 1 1 := by
    norm_num
  have hy23 : toDays (getFullYear t + 1 + 1) 1 1 = toDays (getFullYear t + 2) 1 1 := by
    rw [show getFullYear t + 1 + 1 = getFullYear t + 2 by ring]
  have hd1 := dec31_succ (getFullYear t)
  unfold startOfISOWeekYearD getISOWeekYear
  split_ifs with h1 h2
  · refine ⟨?_, ?_, hs3.2.2⟩ <;>
      (try rw [show getFullYear t + 1 + 1 = getFullYear t + 2 by ring]) <;>
      unfold jsDay at * <;> omega
  · refine ⟨?_, ?_, hs2.2.2⟩ <;> unfold jsDay at * <;> omega
  · refine ⟨?_, ?_, hs1.2.2⟩
    · rw [show getFullYear t - 1 + 1 = getFullYear t by ring] at hy12 hyl1
      unfold jsDay at *
      omega
    · rw [show getFullYear t - 1 + 1 = getFullYear t by ring] at hy12 hyl1 ⊢
      unfold jsDay at *
      omega

/-- Strings are modelled as lists of characters. -/
abbrev Str : Type := List Char

/-- The character for decimal digit `d`. -/
def digitChar (d : Nat) : Char := Char.ofNat (48 + d)

/-- Decimal-digit printer, fuel-based so that it evaluates by kernel
reduction; `natDigits n` is the usual base-10 numeral of `n`. -/
def natDigitsAux : Nat → Nat → List Char → List Char
  | 0, _, acc => acc
  | fuel + 1, n, acc =>
    if n < 10 then digitChar n :: acc
    else natDigitsAux fuel (n / 10) (digitChar (n % 10) :: acc)

/-- Base-10 numeral of a natural number, as JS `String(n)` prints it. -/
def natDigits (n : Nat) : List Char := natDigitsAux (n + 1) n []

/-- JS number-to-string for an integer-valued number. -/
def intToStr (y : Int) : List Char :=
  if y < 0 then '-' :: natDigits y.natAbs else natDigits y.natAbs

/-- JS `"".padStart(2, "0")`. -/
def padStart2 (s : List Char) : List Char :=
  if s.length < 2 then List.replicate (2 - s.length) '0' ++ s else s

def isDigitChar (c : Char) : Bool := 48 ≤ c.toNat && c.toNat ≤ 57

def digitVal (c : Char) : Nat := c.toNat - 48

/-- Accumulating base-10 value of a digit string. -/
def parseNatAcc (a : Nat) (l : List Char) : Nat :=
  l.foldl (fun b c => 10 * b + digitVal c) a

/-- Value of the longest digit prefix, if non-empty; models the digit-reading
phase of JS `parseInt`. -/
def digitsPrefixVal (s : List Char) : Option Nat :=
  if (s.takeWhile isDigitChar).isEmpty then none
  else some (parseNatAcc 0 (s.takeWhile isDigitChar))

/-- JS `parseInt(s)` (radix 10): skip spaces, optional sign, longest digit
prefix; `none` models NaN. -/
def parseIntJS (s : List Char) : Option Int :=
  if (s.dropWhile (fun c => c = ' ')).head? = some '-' then
    (digitsPrefixVal (s.dropWhile (fun c => c = ' ')).tail).map (fun n => -(n : Int))
  else if (s.dropWhile (fun c => c = ' ')).head? = some '+' then
    (digitsPrefixVal (s.dropWhile (fun c => c = ' ')).tail).map (fun n => (n : Int))
  else (digitsPrefixVal (s.dropWhile (fun c => c = ' '))).map (fun n => (n : Int))

/-- `parseInt` applied to a possibly-undefined destructured component:
JS `parseInt(undefined)` is NaN. -/
def parseIntOpt (s : Option (List Char)) : Option Int := s.bind parseIntJS

theorem digitChar_spec (d : Nat) (h : d < 10) :
    isDigitChar (digitChar d) = true ∧ digitVal (digitChar d) = d ∧
    digitChar d ≠ '-' ∧ digitChar d ≠ 'W' ∧ digitChar d ≠ ' ' ∧
    digitChar d ≠ '+' := by
  interval_cases d <;> exact ⟨rfl, rfl, by decide, by decide, by decide, by decide⟩

theorem isDigitChar_not_special (c : Char) (h : isDigitChar c = true) :
    ¬(c = ' ') ∧ ¬(c = '-') ∧ ¬(c = '+') ∧ ¬(c = 'W') := by
  unfold isDigitChar at h
  refine ⟨?_, ?_, ?_, ?_⟩ <;> intro he <;> rw [he] at h <;> exact absurd h (by decide)

theorem natDigitsAux_append (fuel n : Nat) :
    ∀ acc, natDigitsAux fuel n acc = natDigitsAux fuel n [] ++ acc := by
  induction fuel generalizing n with
  | zero => intro acc; rfl
  | succ fuel ih =>
    intro acc
    unfold natDigitsAux
    split_ifs
    · rfl
    · rw [ih (n / 10), ih (n / 10) (digitChar (n % 10) :: [])]
      simp

theorem natDigitsAux_fuel (f1 f2 n : Nat) (h1 : n < f1) (h2 : n < f2) :
    ∀ acc, natDigitsAux f1 n acc = natDigitsAux f2 n acc := by
  induction n using Nat.strong_induction_on generalizing f1 f2 with
  | _ n ih =>
    intro acc
    match f1, f2 with
    | g1 + 1, g2 + 1 =>
      unfold natDigitsAux
      split_ifs with hlt
      · rfl
      · exact ih (n / 10) (by omega) g1 g2 (by omega) (by omega) _

theorem natDigits_step (n : Nat) (h : 10 ≤ n) :
    natDigits n = natDigits (n / 10) ++ [digitChar (n % 10)] := by
  unfold natDigits
  have hstep : natDigitsAux (n + 1) n [] = natDigitsAux n (n / 10) [digitChar (n % 10)] := by
    conv_lhs => unfold natDigitsAux
    rw [if_neg (by omega)]
  rw [hstep]
  rw [natDigitsAux_fuel n (n / 10 + 1) (n / 10) (by omega) (by omega)]
  rw [natDigitsAux_append]

theorem natDigits_small (n : Nat) (h : n < 10) : natDigits n = [digitChar n] := by
  unfold natDigits natDigitsAux
  rw [if_pos h]

theorem natDigits_all_digits (n : Nat) :
    ∀ c ∈ natDigits n, isDigitChar c = true := by
  induction n using Nat.strong_induction_on with
  | _ n ih =>
    by_cases h : n < 10
    · rw [natDigits_small n h]
      intro c hc
      simp at hc
      rw [hc]
      exact (digitChar_spec n h).1
    · rw [natDigits_step n (by omega)]
      intro c hc
      rcases List.mem_append.mp hc with hc | hc
      · exact ih (n / 10) (by omega) c hc
      · simp at hc
        rw [hc]
        exact (digitChar_spec (n % 10) (by omega)).1

theorem parseNatAcc_append (a : Nat) (l1 l2 : List Char) :
    parseNatAcc a (l1 ++ l2) = parseNatAcc (parseNatAcc a l1) l2 := by
  unfold parseNatAcc
  rw [List.foldl_append]

theorem parseNatAcc_natDigits (n : Nat) :
    ∀ a, parseNatAcc a (natDigits n) = a * 10 ^ (natDigits n).length + n := by
  induction n using Nat.strong_induction_on with
  | _ n ih =>
    intro a
    by_cases h : n < 10
    · rw [natDigits_small n h]
      simp [parseNatAcc, (digitChar_spec n h).2.1]
      omega
    · rw [natDigits_step n (by omega), parseNatAcc_append]
      rw [ih (n / 10) (by omega)]
      simp [parseNatAcc, (digitChar_spec (n % 10) (by omega)).2.1]
      ring_nf
      omega

theorem natDigits_ne_nil (n : Nat) : natDigits n ≠ [] := by
  by_cases h : n < 10
  · rw [natDigits_small n h]; simp
  · rw [natDigits_step n (by omega)]; simp

theorem digitsPrefixVal_all (s : List Char) (hne : s ≠ [])
    (hall : ∀ c ∈ s, isDigitChar c = true) :
    digitsPrefixVal s = some (parseNatAcc 0 s) := by
  have htake : s.takeWhile isDigitChar = s := List.takeWhile_eq_self_iff.mpr hall
  unfold digitsPrefixVal
  rw [htake, if_neg (by simpa using hne)]

theorem dropWhile_space_of_digits (s : List Char)
    (hall : ∀ c ∈ s, isDigitChar c = true) :
    s.dropWhile (fun c => c = ' ') = s := by
  match s with
  | [] => rfl
  | c :: rest =>
    have hc := isDigitChar_not_special c (hall c (by simp))
    exact List.dropWhile_cons_of_neg (by simpa using hc.1)

/-- Parsing an all-digit string (no sign processing applies). -/
theorem parseIntJS_digits (s : List Char) (hne : s ≠ [])
    (hall : ∀ c ∈ s, isDigitChar c = true) :
    parseIntJS s = some ((parseNatAcc 0 s : Nat) : Int) := by
  have hdrop := dropWhile_space_of_digits s hall
  match s, hne with
  | c :: rest, _ =>
    have hc := isDigitChar_not_special c (hall c (by simp))
    unfold parseIntJS
    rw [hdrop]
    rw [if_neg (by simp [hc.2.1]), if_neg (by simp [hc.2.2.1])]
    rw [digitsPrefixVal_all _ (by simp) hall]
    rfl

/-- Parsing a printed numeral recovers the number. -/
theorem parseIntJS_natDigits (n : Nat) : parseIntJS (natDigits n) = some (n : Int) := by
  rw [parseIntJS_digits _ (natDigits_ne_nil n) (natDigits_all_digits n)]
  have h := parseNatAcc_natDigits n 0
  simp at h
  rw [h]

/-- Parsing a printed integer (with JS sign handling) recovers the integer. -/
theorem parseIntJS_intToStr (y : Int) : parseIntJS (intToStr y) = some y := by
  unfold intToStr
  split_ifs with hneg
  · have hall := natDigits_all_digits y.natAbs
    have hne := natDigits_ne_nil y.natAbs
    have hdrop : ('-' :: natDigits y.natAbs).dropWhile (fun c => c = ' ')
        = '-' :: natDigits y.natAbs := List.dropWhile_cons_of_neg (by simp)
    unfold parseIntJS
    rw [hdrop]
    rw [if_pos (by simp)]
    simp only [List.tail_cons]
    rw [digitsPrefixVal_all _ hne hall]
    have h := parseNatAcc_natDigits y.natAbs 0
    simp at h
    rw [h]
    have hy : -((y.natAbs : Nat) : Int) = y := by omega
    show some (-((y.natAbs : Nat) : Int)) = some y
    rw [hy]
  · rw [parseIntJS_natDigits y.natAbs]
    congr 1
    omega

theorem parseNatAcc_zeros (k : Nat) (l : List Char) :
    parseNatAcc 0 (List.replicate k '0' ++ l) = parseNatAcc 0 l := by
  induction k with
  | zero => rfl
  | succ k ih =>
    simp only [List.replicate_succ, List.cons_append]
    unfold parseNatAcc at *
    simp only [List.foldl_cons]
    have : 10 * 0 + digitVal '0' = 0 := rfl
    rw [this]
    exact ih

/-- Parsing a zero-padded printed numeral recovers the number. -/
theorem parseIntJS_padStart2_natDigits (n : Nat) :
    parseIntJS (padStart2 (natDigits n)) = some (n : Int) := by
  unfold padStart2
  split_ifs with hlen
  · have hall : ∀ c ∈ List.replicate (2 - (natDigits n).length) '0' ++ natDigits n,
        isDigitChar c = true := by
      intro c hc
      rcases List.mem_append.mp hc with hc | hc
      · rw [List.eq_of_mem_replicate hc]; rfl
      · exact natDigits_all_digits n c hc
    rw [parseIntJS_digits _ (by simp [natDigits_ne_nil n]) hall]
    rw [parseNatAcc_zeros]
    have h := parseNatAcc_natDigits n 0
    simp at h
    rw [h]
  · exact parseIntJS_natDigits n

/-- JS `String.prototype.split` with a non-empty string separator: scan left
to right, cutting at each occurrence. -/
def splitAux (sep : List Char) (cur : List Char) : List Char → List (List Char)
  | [] => [cur.reverse]
  | c :: rest =>
    if sep.isPrefixOf (c :: rest) then
      cur.reverse :: splitAux sep [] (List.drop (sep.length - 1) rest)
    else
      splitAux sep (c :: cur) rest
termination_by s => s.length
decreasing_by
  · simp only [List.length_drop, List.length_cons]
    omega
  · simp only [List.length_cons]
    omega

/-- JS `s.split(sep)`. -/
def splitJS (sep s : List Char) : List (List Char) := splitAux sep [] s

/-- Pattern frequencies (closed string union in the source). -/
inductive Frequency where
  | weekly
  | monthly
  | yearly
  | every_n_days
  | n_per_period
  | nth_weekday_of_month
deriving DecidableEq

/-- Error values; each constructor stands for one throw site of the source. -/
inductive RecErr where
  | unsupportedFrequency
  | periodEndUnsupported
  | configurationError
  | noMatch
  | outOfRange
deriving DecidableEq

/-- ISO week key of a timestamp (weekly and n_per_period periods). -/
def weekKeyOf (t : Int) : Str :=
  intToStr (getISOWeekYear t) ++ ['-', 'W'] ++ padStart2 (intToStr (getISOWeek t))

/-- Year-month key of a timestamp (monthly and nth_weekday_of_month periods). -/
def monthKeyOf (t : Int) : Str :=
  intToStr (getFullYear t) ++ ['-'] ++ padStart2 (intToStr (getMonthJS t + 1))

/-- Year key of a timestamp (yearly periods). -/
def yearKeyOf (t : Int) : Str := intToStr (getFullYear t)

/-- periodKeyService.getPeriodKey. -/
def getPeriodKey (t : Int) (frequency : Frequency) : Except RecErr Str :=
  match frequency with
  | .weekly => .ok (weekKeyOf t)
  | .monthly => .ok (monthKeyOf t)
  | .nth_weekday_of_month => .ok (monthKeyOf t)
  | .yearly => .ok (yearKeyOf t)
  | .n_per_period => .ok (weekKeyOf t)
  | .every_n_days => .error .unsupportedFrequency

/-- `new Date(year, 0, 4)` of the weekly parse path. -/
def jan4Date (year : Int) : Int := mkDate year 0 4

/-- `firstMonday`: jan4 shifted back to its Monday via `setDate`. -/
def firstMondayDate (year : Int) : Int :=
  jsSetDate (jan4Date year)
    (getDate (jan4Date year)
      - (if getDayJS (jan4Date year) = 0 then 7 else getDayJS (jan4Date year)) + 1)

/-- `weekStart`: firstMonday advanced by `week - 1` weeks via `setDate`. -/
def weekStartDate (year week : Int) : Int :=
  jsSetDate (firstMondayDate year)
    (getDate (firstMondayDate year) + (week - 1) * 7)

/-- `weekEnd`: Sunday of the week at 23:59:59.999. -/
def weekEndDate (year week : Int) : Int :=
  jsSetHours
    (jsSetDate (weekStartDate year week) (getDate (weekStartDate year week) + 6))
    23 59 59 999

/-- periodKeyService.getPeriodEndDate. `none` in the payload models an
Invalid Date (a NaN component poisons the whole JS computation). -/
def getPeriodEndDate (periodKey : Str) (frequency : Frequency) :
    Except RecErr (Option Int) :=
  if frequency = .weekly ∨ frequency = .n_per_period then
    match parseIntOpt ((splitJS ['-', 'W'] periodKey).get? 0),
          parseIntOpt ((splitJS ['-', 'W'] periodKey).get? 1) with
    | some year, some week => .ok (some (weekEndDate year week))
    | _, _ => .ok none
  else if frequency = .monthly ∨ frequency = .nth_weekday_of_month then
    match parseIntOpt ((splitJS ['-'] periodKey).get? 0),
          parseIntOpt ((splitJS ['-'] periodKey).get? 1) with
    | some year, some month => .ok (some (jsSetHours (mkDate year month 0) 23 59 59 999))
    | _, _ => .ok none
  else if frequency = .yearly then
    match parseIntJS periodKey with
    | some year => .ok (some (jsSetHours (mkDate year 11 31) 23 59 59 999))
    | none => .ok none
  else .error .periodEndUnsupported

structure NthWeekdayConfig where
  weekday : Int
  occurrence : Int
deriving DecidableEq

structure YearlyConfig where
  month : Int
  day : Int
deriving DecidableEq

structure YearlyNthWeekdayConfig where
  month : Int
  weekday : Int
  occurrence : Int
deriving DecidableEq

structure RecurrencePattern where
  id : Str
  title : Str
  frequency : Frequency
  frequencyValue : Int
  durationMinutes : Int
  nthWeekdayConfig : Option NthWeekdayConfig
  yearlyConfig : Option YearlyConfig
  yearlyNthWeekday : Option YearlyNthWeekdayConfig
  flexibleScheduling : Bool
  active : Bool
deriving DecidableEq

/-- A persisted Event row (the fields the recurrence engine touches). -/
structure Event where
  title : Str
  startTime : Option Int
  durationMinutes : Int
  patternId : Option Str
  periodKey : Option Str
  isTimeBound : Bool
  deadline : Option Int
  category : Str
deriving DecidableEq

/-- prisma.event.count({patternId, periodKey}). -/
def getPatternCompletionCount (events : List Event) (patternId periodKey : Str) : Int :=
  ((events.filter (fun e =>
    (e.patternId == some patternId) && (e.periodKey == some periodKey))).length : Int)

/-- periodKeyService.isPatternSatisfied: count > 0. -/
def isPatternSatisfied (events : List Event) (patternId periodKey : Str) : Bool :=
  decide (0 < getPatternCompletionCount events patternId periodKey)

/-- prisma.event.findFirst({patternId, periodKey}). -/
def findFirstEvent (events : List Event) (patternId periodKey : Str) : Option Event :=
  events.find? (fun e =>
    (e.patternId == some patternId) && (e.periodKey == some periodKey))

/-- date-fns getDaysInMonth of the month containing `t`. -/
def getDaysInMonthJS (t : Int) : Int :=
  daysInMonth (civilYearOf (jsDay t)) (monthOf (jsDay t))

/-- All days of month (`month` 0-indexed) of `year` that fall on `weekday`,
ascending; renders the source's day-stepping collection loop over
startOfMonth..endOfMonth as a map-filter over the month's days. -/
def occurrencesOf (year month weekday : Int) : List Int :=
  ((List.range (jsMakeDay year (month + 1) 1 - jsMakeDay year month 1).toNat).map
    (fun i : Nat => jsMakeDay year month 1 + (i : Int))).filter
    (fun n => (n + 4) % 7 == weekday)

/-- recurrenceService.calculateNthWeekdayOfMonth; returns the day number of
the selected date. -/
def calculateNthWeekdayOfMonth (year month weekday occurrence : Int) :
    Except RecErr Int :=
  match hocc : occurrencesOf year month weekday with
  | [] => .error .noMatch
  | o :: os =>
    if occurrence = -1 then .ok ((o :: os).getLast (by simp))
    else if h : 0 < occurrence ∧ occurrence ≤ ((o :: os).length : Int) then
      .ok ((o :: os).get ⟨(occurrence - 1).toNat, by omega⟩)
    else .error .outOfRange

/-- recurrenceService.calculateStartTime. -/
def calculateStartTime (pattern : RecurrencePattern) (referenceDate : Int) :
    Except RecErr Int :=
  match pattern.frequency with
  | .weekly => .ok (jsSetHours referenceDate 19 0 0 0)
  | .monthly => .ok (jsSetHours referenceDate 19 0 0 0)
  | .yearly =>
    match pattern.yearlyConfig with
    | none => .error .configurationError
    | some config =>
      let year := getFullYear referenceDate
      -- The source passes the bare year number to date-fns isLeapYear, which
      -- reads any number as a millisecond timestamp; the year tested is that
      -- of the instant `year` ms after the epoch, not `year` itself.
      let day1 := if config.month = 2 ∧ config.day = 29 ∧
          ¬(isLeapYear (getFullYear year) = true)
        then 28 else config.day
      let dim := getDaysInMonthJS (mkDate year (config.month - 1) 1)
      let day2 := if dim < day1 then dim else day1
      .ok (mkDate year (config.month - 1) day2 + 19 * 3600000)
  | .nth_weekday_of_month =>
    match pattern.nthWeekdayConfig with
    | none => .error .configurationError
    | some config => do
      let day ← calculateNthWeekdayOfMonth (getFullYear referenceDate)
        (getMonthJS referenceDate) config.weekday config.occurrence
      pure (jsSetHours (day * 86400000) 19 0 0 0)
  | .n_per_period => .ok (jsSetHours referenceDate 19 0 0 0)
  | .every_n_days => .ok (jsSetHours referenceDate 19 0 0 0)

/-- The creation tail of generateInstanceForPeriod: compute startTime and
deadline, persist one new Event. -/
def createInstance (events : List Event) (pattern : RecurrencePattern)
    (periodKey : Str) (referenceDate : Int) :
    Except RecErr (Option Event × List Event) := do
  let startTime ← if pattern.flexibleScheduling then pure (none : Option Int)
    else do
      let s ← calculateStartTime pattern referenceDate
      pure (some s)
  let deadline ← getPeriodEndDate periodKey pattern.frequency
  let event : Event := {
    title := pattern.title,
    startTime := startTime,
    durationMinutes := pattern.durationMinutes,
    patternId := some pattern.id,
    periodKey := some periodKey,
    isTimeBound := true,
    deadline := deadline,
    category := "recurring".data }
  pure (some event, events ++ [event])

/-- recurrenceService.generateInstanceForPeriod, over an explicit event store.
Returns the created event (or null) together with the updated store. -/
def generateInstanceForPeriod (events : List Event) (pattern : RecurrencePattern)
    (periodKey : Str) (referenceDate : Int) :
    Except RecErr (Option Event × List Event) :=
  if pattern.frequency ≠ .n_per_period then
    if isPatternSatisfied events pattern.id periodKey then .ok (none, events)
    else createInstance events pattern periodKey referenceDate
  else
    if pattern.frequencyValue ≤ getPatternCompletionCount events pattern.id periodKey
    then .ok (none, events)
    else createInstance events pattern periodKey referenceDate

/-- prisma.recurrencePattern.findUnique({id}). -/
def findUniquePattern (patterns : List RecurrencePattern) (patternId : Str) :
    Option RecurrencePattern :=
  patterns.find? (fun p => p.id == patternId)

/-- The startTime value of a candidate row; the where-clause of
findLatestCompletion admits only rows with a non-null startTime, so the
default is never reached there. -/
def startVal (e : Event) : Int := e.startTime.getD 0

/-- The accumulator step realizing ORDER BY startTime DESC LIMIT 1. -/
def pickLater (best : Option Event) (e : Event) : Option Event :=
  match best with
  | none => some e
  | some b => if startVal b < startVal e then some e else some b

/-- prisma.event.findFirst({patternId, startTime not null and ≤ now},
orderBy startTime desc): a row of maximal startTime among the matches. -/
def findLatestCompletion (events : List Event) (patternId : Str) (now : Int) :
    Option Event :=
  (events.filter (fun e => (e.patternId == some patternId) &&
      (match e.startTime with | some s => decide (s ≤ now) | none => false))).foldl
    pickLater none

/-- recurrenceService.getNextEveryNDaysDate. -/
def getNextEveryNDaysDate (patterns : List RecurrencePattern)
    (events : List Event) (patternId : Str) (now : Int) : Option Int :=
  match findUniquePattern patterns patternId with
  | none => none
  | some pattern =>
    if pattern.frequency ≠ .every_n_days then none
    else
      match findLatestCompletion events patternId now with
      | none => some now
      | some lastEvent =>
        match lastEvent.startTime with
        | none => some now
        | some s => some (s + pattern.frequencyValue * 86400000)

/-- Transient virtual event (never persisted). -/
structure VirtualEvent where
  id : Str
  title : Str
  durationMinutes : Int
  patternId : Str
  periodKey : Str
  category : Str
  isFlexible : Bool
  deadline : Option Int
  notes : Str
deriving DecidableEq

/-- virtualEventService.createVirtualEvent. -/
def createVirtualEvent (pattern : RecurrencePattern) (periodKey : Str)
    (frequency : Frequency) : Except RecErr VirtualEvent := do
  let deadline ← getPeriodEndDate periodKey frequency
  pure {
    id := "virtual-".data ++ pattern.id ++ "-".data ++ periodKey,
    title := pattern.title,
    durationMinutes := pattern.durationMinutes,
    patternId := pattern.id,
    periodKey := periodKey,
    category := "recurring".data,
    isFlexible := pattern.flexibleScheduling,
    deadline := deadline,
    notes := [] }

theorem daysInMonth_range (y m : Int) (h1 : 1 ≤ m) (h2 : m ≤ 12) :
    28 ≤ daysInMonth y m ∧ daysInMonth y m ≤ 31 := by
  unfold daysInMonth
  split_ifs <;> omega

/-- Advancing a date by one month moves it forward by at least 28 days. -/
theorem jsSetMonth_step (t : Int) :
    t + 28 * 86400000 ≤ jsSetMonth t (getMonthJS t + 1) := by
  have HB := toCivil_bounds (jsDay t)
  have HR := toDays_toCivil (jsDay t)
  have hdim := daysInMonth_range (civilYearOf (jsDay t)) (monthOf (jsDay t)) HB.1 HB.2.1
  unfold jsSetMonth getMonthJS getDate getFullYear
  rw [show monthOf (jsDay t) - 1 + 1 = monthOf (jsDay t) by ring]
  by_cases hm : monthOf (jsDay t) ≤ 11
  · rw [jsMakeDay_eq _ _ _ (by omega) (by omega)]
    have hms := month_end_succ (civilYearOf (jsDay t)) (monthOf (jsDay t)) HB.1 hm
    have hlin := toDays_lin (civilYearOf (jsDay t)) (monthOf (jsDay t))
      (dayOfMonthOf (jsDay t))
      (daysInMonth (civilYearOf (jsDay t)) (monthOf (jsDay t)) - dayOfMonthOf (jsDay t))
    rw [show dayOfMonthOf (jsDay t) +
      (daysInMonth (civilYearOf (jsDay t)) (monthOf (jsDay t)) - dayOfMonthOf (jsDay t))
      = daysInMonth (civilYearOf (jsDay t)) (monthOf (jsDay t)) by ring] at hlin
    unfold jsDay msWithinDay at *
    omega
  · have hm12 : monthOf (jsDay t) = 12 := by omega
    rw [hm12] at HR HB hdim ⊢
    unfold jsMakeDay
    rw [show (civilYearOf (jsDay t) * 12 + 12) / 12 = civilYearOf (jsDay t) + 1 by omega,
        show (civilYearOf (jsDay t) * 12 + 12) % 12 = 0 by omega]
    norm_num
    have hds := dec31_succ (civilYearOf (jsDay t))
    have hlin := toDays_lin (civilYearOf (jsDay t)) 12 (dayOfMonthOf (jsDay t))
      (31 - dayOfMonthOf (jsDay t))
    rw [show dayOfMonthOf (jsDay t) + (31 - dayOfMonthOf (jsDay t)) = 31 by ring] at hlin
    have h31 : daysInMonth (civilYearOf (jsDay t)) 12 = 31 := by
      unfold daysInMonth; norm_num
    unfold jsDay msWithinDay at *
    omega

/-- `setFullYear(t, year + 1)` (month and day kept) moves a date forward by at
least 365 days. -/
theorem toDays_year_succ_ge (y m d : Int) :
    toDays y m d + 365 ≤ toDays (y + 1) m d := by
  unfold toDays
  have hs1 := shiftedToDay_succ (y - 1) ((153 * ((m + 9) % 12) + 2) / 5 + d - 1)
  have hs2 := shiftedToDay_succ y ((153 * ((m + 9) % 12) + 2) / 5 + d - 1)
  split_ifs with hm
  · rw [show y + 1 - 1 = (y - 1) + 1 by ring, hs1]
    unfold shiftedToDay
    split_ifs <;> omega
  · rw [hs2]
    unfold shiftedToDay
    split_ifs <;> omega

/-- `t.setFullYear(y)` with month and day taken from `t` itself. -/
def jsSetYearOnly (t y : Int) : Int :=
  jsMakeDay y (getMonthJS t) (getDate t) * 86400000 + msWithinDay t

theorem jsSetYearOnly_step (t : Int) :
    t + 365 * 86400000 ≤ jsSetYearOnly t (getFullYear t + 1) := by
  have HB := toCivil_bounds (jsDay t)
  have HR := toDays_toCivil (jsDay t)
  unfold jsSetYearOnly getMonthJS getDate getFullYear
  rw [jsMakeDay_eq _ _ _ (by omega) (by omega)]
  rw [show monthOf (jsDay t) - 1 + 1 = monthOf (jsDay t) by ring]
  have hy := toDays_year_succ_ge (civilYearOf (jsDay t)) (monthOf (jsDay t)) 1
  have hlin1 := toDays_lin (civilYearOf (jsDay t)) (monthOf (jsDay t)) 1
    (dayOfMonthOf (jsDay t) - 1)
  rw [show (1 : Int) + (dayOfMonthOf (jsDay t) - 1) = dayOfMonthOf (jsDay t) by ring]
    at hlin1
  have hlin2 := toDays_lin (civilYearOf (jsDay t) + 1) (monthOf (jsDay t)) 1
    (dayOfMonthOf (jsDay t) - 1)
  rw [show (1 : Int) + (dayOfMonthOf (jsDay t) - 1) = dayOfMonthOf (jsDay t) by ring]
    at hlin2
  have hy2 := toDays_year_succ_ge (civilYearOf (jsDay t)) (monthOf (jsDay t))
    (dayOfMonthOf (jsDay t))
  unfold jsDay msWithinDay at *
  omega

/-- The weekly period loop of getPeriodsInRange. -/
def weeklyPeriodsLoop (endW current : Int) : List (Str × Int) :=
  if h : current ≤ endW then
    (weekKeyOf current, current)
      :: weeklyPeriodsLoop endW (jsSetDate current (getDate current + 7))
  else []
termination_by (endW + 1 - current).toNat
decreasing_by
  rw [jsSetDate_add]
  omega

/-- The monthly period loop of getPeriodsInRange. -/
def monthlyPeriodsLoop (endM current : Int) : List (Str × Int) :=
  if h : current ≤ endM then
    (monthKeyOf current, current)
      :: monthlyPeriodsLoop endM (jsSetMonth current (getMonthJS current + 1))
  else []
termination_by (endM + 1 - current).toNat
decreasing_by
  have hstep := jsSetMonth_step current
  omega

/-- The yearly period loop of getPeriodsInRange. -/
def yearlyPeriodsLoop (endY current : Int) : List (Str × Int) :=
  if h : current ≤ endY then
    (yearKeyOf current, current)
      :: yearlyPeriodsLoop endY (jsSetYearOnly current (getFullYear current + 1))
  else []
termination_by (endY + 1 - current).toNat
decreasing_by
  have hstep := jsSetYearOnly_step current
  omega

/-- date-fns startOfWeek (weekStartsOn 1), as a timestamp. -/
def startOfWeekMs (t : Int) : Int := startOfISOWeekD (jsDay t) * 86400000

/-- date-fns endOfWeek (weekStartsOn 1): Sunday 23:59:59.999. -/
def endOfWeekMs (t : Int) : Int :=
  (startOfISOWeekD (jsDay t) + 6) * 86400000 + 86399999

/-- date-fns startOfMonth. -/
def startOfMonthMs (t : Int) : Int := jsSetHours (jsSetDate t 1) 0 0 0 0

/-- date-fns endOfMonth. -/
def endOfMonthMs (t : Int) : Int :=
  jsSetHours (jsSetFullYear t (getFullYear t) (getMonthJS t + 1) 0) 23 59 59 999

/-- date-fns startOfYear. -/
def startOfYearMs (t : Int) : Int :=
  jsSetHours (jsSetFullYear t (getFullYear t) 0 1) 0 0 0 0

/-- date-fns endOfYear. -/
def endOfYearMs (t : Int) : Int :=
  jsSetHours (jsSetFullYear t (getFullYear t) 11 31) 23 59 59 999

/-- virtualEventService.getPeriodsInRange. -/
def getPeriodsInRange (startDate endDate : Int) (frequency : Frequency) :
    List (Str × Int) :=
  match frequency with
  | .weekly => weeklyPeriodsLoop (endOfWeekMs endDate) (startOfWeekMs startDate)
  | .n_per_period => weeklyPeriodsLoop (endOfWeekMs endDate) (startOfWeekMs startDate)
  | .monthly => monthlyPeriodsLoop (endOfMonthMs endDate) (startOfMonthMs startDate)
  | .nth_weekday_of_month =>
    monthlyPeriodsLoop (endOfMonthMs endDate) (startOfMonthMs startDate)
  | .yearly => yearlyPeriodsLoop (endOfYearMs endDate) (startOfYearMs startDate)
  | .every_n_days => []

/-- The per-pattern period loop of generateVirtualEventsForRange. -/
def genForPattern (events : List Event) (pattern : RecurrencePattern) :
    List (Str × Int) → Except RecErr (List VirtualEvent)
  | [] => .ok []
  | (periodKey, _) :: rest =>
    if (findFirstEvent events pattern.id periodKey).isSome then
      genForPattern events pattern rest
    else if pattern.frequency = .n_per_period ∧
        pattern.frequencyValue ≤ getPatternCompletionCount events pattern.id periodKey
    then genForPattern events pattern rest
    else do
      let v ← createVirtualEvent pattern periodKey pattern.frequency
      let vs ← genForPattern events pattern rest
      pure (v :: vs)

/-- The per-pattern outer loop of generateVirtualEventsForRange. -/
def genForPatterns (events : List Event) (startDate endDate : Int) :
    List RecurrencePattern → Except RecErr (List VirtualEvent)
  | [] => .ok []
  | p :: ps => do
    let here ← if p.frequency = .every_n_days then pure []
      else genForPattern events p (getPeriodsInRange startDate endDate p.frequency)
    let rest ← genForPatterns events startDate endDate ps
    pure (here ++ rest)

/-- virtualEventService.generateVirtualEventsForRange, over an explicit store. -/
def generateVirtualEventsForRange (patterns : List RecurrencePattern)
    (events : List Event) (startDate endDate : Int) :
    Except RecErr (List VirtualEvent) :=
  genForPatterns events startDate endDate (patterns.filter (fun p => p.active))

theorem isoWeek_spec (t : Int) :
    1 ≤ getISOWeek t ∧ getISOWeek t ≤ 53 ∧
    startOfISOWeekYearD t + 7 * (getISOWeek t - 1) = startOfISOWeekD (jsDay t) := by
  have hbr := isoWeekYear_bracket t
  have hsn := sow_facts (jsDay t)
  have hsY := sow_facts (toDays (getISOWeekYear t) 1 4)
  have hsY1 := sow_facts (toDays (getISOWeekYear t + 1) 1 4)
  have hyl := year_length_bounds (getISOWeekYear t)
  have hlY : toDays (getISOWeekYear t) 1 4 = toDays (getISOWeekYear t) 1 1 + 3 := by
    have h := toDays_lin (getISOWeekYear t) 1 1 3; norm_num at h; omega
  have hlY1 : toDays (getISOWeekYear t + 1) 1 4
      = toDays (getISOWeekYear t + 1) 1 1 + 3 := by
    have h := toDays_lin (getISOWeekYear t + 1) 1 1 3; norm_num at h; omega
  unfold startOfISOWeekYearD at hbr ⊢
  unfold getISOWeek startOfISOWeekYearD
  omega

theorem count_pos_iff (events : List Event) (pid pk : Str) :
    0 < getPatternCompletionCount events pid pk ↔
    ∃ e ∈ events, e.patternId = some pid ∧ e.periodKey = some pk := by
  unfold getPatternCompletionCount
  constructor
  · intro h
    have hlen : 0 < (events.filter (fun e =>
        (e.patternId == some pid) && (e.periodKey == some pk))).length := by
      exact_mod_cast h
    rcases List.exists_mem_of_length_pos hlen with ⟨e, he⟩
    rcases List.mem_filter.mp he with ⟨hmem, hcond⟩
    simp only [Bool.and_eq_true, beq_iff_eq] at hcond
    exact ⟨e, hmem, hcond⟩
  · rintro ⟨e, hmem, h1, h2⟩
    have hin : e ∈ events.filter (fun e =>
        (e.patternId == some pid) && (e.periodKey == some pk)) :=
      List.mem_filter.mpr ⟨hmem, by simp [h1, h2]⟩
    have hp := List.length_pos.mpr (List.ne_nil_of_mem hin)
    exact_mod_cast hp

theorem isPatternSatisfied_iff (events : List Event) (pid pk : Str) :
    isPatternSatisfied events pid pk = true ↔
    ∃ e ∈ events, e.patternId = some pid ∧ e.periodKey = some pk := by
  unfold isPatternSatisfied
  rw [decide_eq_true_eq]
  exact count_pos_iff events pid pk

theorem getPeriodEndDate_ok (k : Str) (f : Frequency) (h : f ≠ .every_n_days) :
    ∃ r, getPeriodEndDate k f = .ok r := by
  unfold getPeriodEndDate
  cases f <;> simp only [reduceCtorEq, or_self, or_false, false_or, if_true, if_false,
    reduceIte] <;> try exact absurd rfl h
  all_goals (split <;> exact ⟨_, rfl⟩)

theorem createInstance_shape (events : List Event) (pattern : RecurrencePattern)
    (periodKey : Str) (referenceDate : Int) :
    (∃ err, createInstance events pattern periodKey referenceDate = .error err) ∨
    (∃ ev : Event, createInstance events pattern periodKey referenceDate
        = .ok (some ev, events ++ [ev]) ∧
      ev.patternId = some pattern.id ∧ ev.periodKey = some periodKey) := by
  unfold createInstance
  rcases hb : pattern.flexibleScheduling with _ | _
  · rcases hst : calculateStartTime pattern referenceDate with serr | s
    · left
      exact ⟨serr, by simp [hb, hst, bind, Except.bind]⟩
    · rcases hd : getPeriodEndDate periodKey pattern.frequency with derr | dl
      · left
        exact ⟨derr, by simp [hb, hst, hd, bind, Except.bind, pure, Except.pure]⟩
      · right
        refine ⟨Event.mk pattern.title (some s) pattern.durationMinutes
          (some pattern.id) (some periodKey) true dl ("recurring".data), ?_, rfl, rfl⟩
        simp [hb, hst, hd, bind, Except.bind, pure, Except.pure]
  · rcases hd : getPeriodEndDate periodKey pattern.frequency with derr | dl
    · left
      exact ⟨derr, by simp [hb, hd, bind, Except.bind, pure, Except.pure]⟩
    · right
      refine ⟨Event.mk pattern.title none pattern.durationMinutes
        (some pattern.id) (some periodKey) true dl ("recurring".data), ?_, rfl, rfl⟩
      simp [hb, hd, bind, Except.bind, pure, Except.pure]

theorem calculateStartTime_npp (pattern : RecurrencePattern) (rd : Int)
    (hfreq : pattern.frequency = .n_per_period) :
    calculateStartTime pattern rd = .ok (jsSetHours rd 19 0 0 0) := by
  unfold calculateStartTime
  rw [hfreq]

theorem createInstance_npp_ok (events : List Event) (pattern : RecurrencePattern)
    (pk : Str) (rd : Int) (hfreq : pattern.frequency = .n_per_period) :
    ∃ ev : Event, createInstance events pattern pk rd = .ok (some ev, events ++ [ev])
      ∧ ev.patternId = some pattern.id ∧ ev.periodKey = some pk := by
  rcases createInstance_shape events pattern pk rd with ⟨err, herr⟩ | ⟨ev, hok, h1, h2⟩
  · exfalso
    have hst := calculateStartTime_npp pattern rd hfreq
    have hpe := getPeriodEndDate_ok pk pattern.frequency
      (by rw [hfreq]; intro hcon; cases hcon)
    rcases hpe with ⟨r, hr⟩
    unfold createInstance at herr
    rcases hbf : pattern.flexibleScheduling with _ | _ <;>
      simp [hbf, hst, hr, bind, Except.bind, pure, Except.pure] at herr
  · exact ⟨ev, hok, h1, h2⟩

/-- C1: Idempotence of instance generation. For a pattern whose frequency is
not n_per_period, an already-persisted Event for (pattern.id, periodKey)
makes generateInstanceForPeriod return null with the store unchanged; hence a
creating call followed by a second call for the same (pattern, periodKey)
yields exactly one new Event and null on the second call. For n_per_period
patterns the call returns null and creates nothing precisely when the count
of persisted events for (pattern.id, periodKey) already reaches
frequencyValue (frequencyValue = 3 with 3 events: null; with 2: a new
Event). -/
theorem claim_C1 :
    (∀ (events : List Event) (pattern : RecurrencePattern) (periodKey : Str)
        (referenceDate : Int),
      pattern.frequency ≠ .n_per_period →
      (∃ e ∈ events, e.patternId = some pattern.id ∧ e.periodKey = some periodKey) →
      generateInstanceForPeriod events pattern periodKey referenceDate
        = .ok (none, events)) ∧
    (∀ (events : List Event) (pattern : RecurrencePattern) (periodKey : Str)
        (referenceDate : Int) (ev : Event) (events1 : List Event),
      pattern.frequency ≠ .n_per_period →
      generateInstanceForPeriod events pattern periodKey referenceDate
        = .ok (some ev, events1) →
      events1 = events ++ [ev] ∧
      generateInstanceForPeriod events1 pattern periodKey referenceDate
        = .ok (none, events1)) ∧
    (∀ (events : List Event) (pattern : RecurrencePattern) (periodKey : Str)
        (referenceDate : Int),
      pattern.frequency = .n_per_period →
      ((pattern.frequencyValue ≤ getPatternCompletionCount events pattern.id periodKey →
        generateInstanceForPeriod events pattern periodKey referenceDate
          = .ok (none, events)) ∧
       (getPatternCompletionCount events pattern.id periodKey < pattern.frequencyValue →
        ∃ ev : Event, generateInstanceForPeriod events pattern periodKey referenceDate
          = .ok (some ev, events ++ [ev])))) := by
  have part1 : ∀ (events : List Event) (pattern : RecurrencePattern)
      (periodKey : Str) (referenceDate : Int),
      pattern.frequency ≠ .n_per_period →
      (∃ e ∈ events, e.patternId = some pattern.id ∧ e.periodKey = some periodKey) →
      generateInstanceForPeriod events pattern periodKey referenceDate
        = .ok (none, events) := by
    intro events pattern pk rd hfreq hex
    unfold generateInstanceForPeriod
    rw [if_pos hfreq, if_pos ((isPatternSatisfied_iff events pattern.id pk).mpr hex)]
  refine ⟨part1, ?_, ?_⟩
  · intro events pattern pk rd ev events1 hfreq hgen
    unfold generateInstanceForPeriod at hgen
    rw [if_pos hfreq] at hgen
    by_cases hsat : isPatternSatisfied events pattern.id pk = true
    · rw [if_pos hsat] at hgen
      exact absurd (congrArg (fun r => match r with
        | Except.ok (o, _) => o.isSome
        | Except.error _ => false) hgen) (by simp)
    · rw [if_neg hsat] at hgen
      rcases createInstance_shape events pattern pk rd with ⟨err, herr⟩ | ⟨ev0, hok, h1, h2⟩
      · rw [herr] at hgen
        cases hgen
      · rw [hok] at hgen
        have hev : ev0 = ev ∧ events1 = events ++ [ev0] := by
          have h := Except.ok.inj hgen
          have hfst := congrArg Prod.fst h
          have hsnd := congrArg Prod.snd h
          simp at hfst hsnd
          exact ⟨hfst, hsnd.symm⟩
        have hmem : ev ∈ events1 := by
          rw [hev.2, ← hev.1]
          simp
        refine ⟨by rw [hev.2, hev.1], ?_⟩
        exact part1 events1 pattern pk rd hfreq ⟨ev, hmem, by rw [← hev.1]; exact h1,
          by rw [← hev.1]; exact h2⟩
  · intro events pattern pk rd hfreq
    constructor
    · intro hge
      unfold generateInstanceForPeriod
      rw [if_neg (by simp [hfreq]), if_pos hge]
    · intro hlt
      unfold generateInstanceForPeriod
      rw [if_neg (by simp [hfreq]), if_neg (by omega)]
      rcases createInstance_npp_ok events pattern pk rd hfreq with ⟨ev, hok, _, _⟩
      exact ⟨ev, hok⟩

theorem claim_C1_witness :
    generateInstanceForPeriod
      [Event.mk [] none 0 (some ['p']) (some ['k']) true none []]
      (RecurrencePattern.mk ['p'] [] Frequency.weekly 1 60 none none none true true)
      ['k'] 0
      = .ok (none, [Event.mk [] none 0 (some ['p']) (some ['k']) true none []]) :=
  claim_C1.1 _ _ _ _ (by decide) ⟨Event.mk [] none 0 (some ['p']) (some ['k']) true none [],
    by simp, rfl, rfl⟩

theorem pickLater_some_def (b e : Event) :
    pickLater (some b) e = if startVal b < startVal e then some e else some b := rfl

theorem foldl_pickLater_spec (L : List Event) :
    ∀ a0 : Event,
    ∃ b, L.foldl pickLater (some a0) = some b ∧ (b = a0 ∨ b ∈ L) ∧
      (∀ e ∈ L, startVal e ≤ startVal b) ∧ startVal a0 ≤ startVal b := by
  induction L with
  | nil =>
    intro a0
    exact ⟨a0, rfl, Or.inl rfl, by simp, le_refl _⟩
  | cons e L ih =>
    intro a0
    by_cases hlt : startVal a0 < startVal e
    · rcases ih e with ⟨b, hfold, hwhere, hbound, hacc⟩
      refine ⟨b, ?_, ?_, ?_, by omega⟩
      · rw [List.foldl_cons, pickLater_some_def, if_pos hlt]
        exact hfold
      · rcases hwhere with hw | hw
        · exact Or.inr (by rw [hw]; simp)
        · exact Or.inr (List.mem_cons_of_mem e hw)
      · intro e2 he2
        rcases List.mem_cons.mp he2 with he2 | he2
        · rw [he2]; exact hacc
        · exact hbound e2 he2
    · rcases ih a0 with ⟨b, hfold, hwhere, hbound, hacc⟩
      refine ⟨b, ?_, hwhere.imp id (List.mem_cons_of_mem e), ?_, hacc⟩
      · rw [List.foldl_cons, pickLater_some_def, if_neg hlt]
        exact hfold
      · intro e2 he2
        rcases List.mem_cons.mp he2 with he2 | he2
        · rw [he2]; omega
        · exact hbound e2 he2

theorem mem_filter_latest (events : List Event) (pid : Str) (now : Int) (e : Event) :
    e ∈ events.filter (fun e => (e.patternId == some pid) &&
        (match e.startTime with | some s => decide (s ≤ now) | none => false))
      ↔ e ∈ events ∧ e.patternId = some pid ∧ ∃ s, e.startTime = some s ∧ s ≤ now := by
  rw [List.mem_filter]
  constructor
  · rintro ⟨hm, hc⟩
    simp only [Bool.and_eq_true, beq_iff_eq] at hc
    refine ⟨hm, hc.1, ?_⟩
    rcases hs : e.startTime with _ | s
    · rw [hs] at hc
      simp at hc
    · rw [hs] at hc
      refine ⟨s, rfl, ?_⟩
      have h2 := hc.2
      simp at h2
      exact h2
  · rintro ⟨hm, hp, s, hs, hle⟩
    refine ⟨hm, ?_⟩
    simp only [Bool.and_eq_true, beq_iff_eq]
    exact ⟨hp, by rw [hs]; simpa using hle⟩

/-- C9: next suggested date for an every_n_days pattern. If no persisted
event of the pattern has a non-null startTime ≤ now, the result is `now`;
otherwise it is the maximal such startTime plus frequencyValue days. -/
theorem claim_C9 (patterns : List RecurrencePattern) (events : List Event)
    (pid : Str) (now : Int) (pattern : RecurrencePattern)
    (hfind : findUniquePattern patterns pid = some pattern)
    (hfreq : pattern.frequency = .every_n_days) :
    ((¬∃ e ∈ events, e.patternId = some pid ∧ ∃ s, e.startTime = some s ∧ s ≤ now) →
      getNextEveryNDaysDate patterns events pid now = some now) ∧
    (∀ s0 : Int,
      (∃ e ∈ events, e.patternId = some pid ∧ e.startTime = some s0 ∧ s0 ≤ now) →
      (∀ e ∈ events, ∀ s : Int, e.patternId = some pid → e.startTime = some s →
        s ≤ now → s ≤ s0) →
      getNextEveryNDaysDate patterns events pid now
        = some (s0 + pattern.frequencyValue * 86400000)) := by
  constructor
  · intro hnone
    have hfilter : events.filter (fun e => (e.patternId == some pid) &&
        (match e.startTime with | some s => decide (s ≤ now) | none => false)) = [] := by
      rcases hL : events.filter (fun e => (e.patternId == some pid) &&
          (match e.startTime with | some s => decide (s ≤ now) | none => false))
        with _ | ⟨e, L⟩
      · exact hL
      · exfalso
        have hmem : e ∈ events.filter (fun e => (e.patternId == some pid) &&
            (match e.startTime with | some s => decide (s ≤ now) | none => false)) := by
          rw [hL]; simp
        rcases (mem_filter_latest events pid now e).mp hmem with ⟨hm, hp, s, hs, hle⟩
        exact hnone ⟨e, hm, hp, s, hs, hle⟩
    unfold getNextEveryNDaysDate
    simp only [hfind]
    rw [if_neg (by simp [hfreq])]
    unfold findLatestCompletion
    rw [hfilter]
    rfl
  · intro s0 hex hub
    rcases hex with ⟨e0, hm0, hp0, hs0, hle0⟩
    have he0 : e0 ∈ events.filter (fun e => (e.patternId == some pid) &&
        (match e.startTime with | some s => decide (s ≤ now) | none => false)) :=
      (mem_filter_latest events pid now e0).mpr ⟨hm0, hp0, s0, hs0, hle0⟩
    rcases hL : events.filter (fun e => (e.patternId == some pid) &&
        (match e.startTime with | some s => decide (s ≤ now) | none => false))
      with _ | ⟨ehead, L⟩
    · rw [hL] at he0
      cases he0
    · rcases foldl_pickLater_spec L ehead with ⟨b, hfold, hwhere, hbound, hacc⟩
      have hbmem : b ∈ events.filter (fun e => (e.patternId == some pid) &&
          (match e.startTime with | some s => decide (s ≤ now) | none => false)) := by
        rw [hL]
        rcases hwhere with hw | hw
        · rw [hw]; simp
        · simp [hw]
      rcases (mem_filter_latest events pid now b).mp hbmem with ⟨hbm, hbp, sb, hsb, hble⟩
      have hsv : startVal b = sb := by unfold startVal; rw [hsb]; rfl
      have hsv0 : startVal e0 = s0 := by unfold startVal; rw [hs0]; rfl
      have hub_b : sb ≤ s0 := hub b hbm sb hbp hsb hble
      have hlb_b : s0 ≤ sb := by
        rw [hL] at he0
        rcases List.mem_cons.mp he0 with he0 | he0
        · rw [← hsv, ← hsv0, he0]
          exact hacc
        · rw [← hsv, ← hsv0]
          exact hbound e0 he0
      have hsbeq : sb = s0 := by omega
      unfold getNextEveryNDaysDate
      simp only [hfind]
      rw [if_neg (by simp [hfreq])]
      unfold findLatestCompletion
      rw [hL]
      rw [List.foldl_cons]
      have hstep : pickLater none ehead = some ehead := rfl
      rw [hstep, hfold]
      simp only [hsb, hsbeq]

theorem claim_C9_witness :
    getNextEveryNDaysDate
      [RecurrencePattern.mk ['p'] [] Frequency.every_n_days 3 60 none none none true true]
      [Event.mk [] (some 1000) 0 (some ['p']) none true none [],
       Event.mk [] (some 2000) 0 (some ['p']) none true none []]
      ['p'] 5000
      = some (2000 + 3 * 86400000) :=
  (claim_C9
    [RecurrencePattern.mk ['p'] [] Frequency.every_n_days 3 60 none none none true true]
    [Event.mk [] (some 1000) 0 (some ['p']) none true none [],
     Event.mk [] (some 2000) 0 (some ['p']) none true none []]
    ['p'] 5000
    (RecurrencePattern.mk ['p'] [] Frequency.every_n_days 3 60 none none none true true)
    (by decide) rfl).2 2000
    ⟨Event.mk [] (some 2000) 0 (some ['p']) none true none [], by simp, rfl, rfl, by omega⟩
    (by
      intro e he s hp hs hle
      rcases List.mem_cons.mp he with h | h
      · subst h
        simp at hs
        omega
      · rcases List.mem_cons.mp h with h2 | h2
        · subst h2
          simp at hs
          omega
        · cases h2)

theorem monthLen_bounds (y m : Int) :
    28 ≤ jsMakeDay y (m + 1) 1 - jsMakeDay y m 1 ∧
    jsMakeDay y (m + 1) 1 - jsMakeDay y m 1 ≤ 31 := by
  unfold jsMakeDay
  have h12 : (y * 12 + m) % 12 = 11 ∨ (y * 12 + m) % 12 ≤ 10 := by omega
  rcases h12 with h | h
  · have h1 : (y * 12 + (m + 1)) / 12 = (y * 12 + m) / 12 + 1 := by omega
    have h2 : (y * 12 + (m + 1)) % 12 = 0 := by omega
    rw [h1, h2, show (y * 12 + m) % 12 = 11 from h]
    norm_num
    have hd := dec31_succ ((y * 12 + m) / 12)
    have hl := toDays_lin ((y * 12 + m) / 12) 12 1 30
    norm_num at hl
    omega
  · have h1 : (y * 12 + (m + 1)) / 12 = (y * 12 + m) / 12 := by omega
    have h2 : (y * 12 + (m + 1)) % 12 = (y * 12 + m) % 12 + 1 := by omega
    rw [h1, h2]
    have hms := month_end_succ ((y * 12 + m) / 12) ((y * 12 + m) % 12 + 1)
      (by omega) (by omega)
    have hdr := daysInMonth_range ((y * 12 + m) / 12) ((y * 12 + m) % 12 + 1)
      (by omega) (by omega)
    have hl := toDays_lin ((y * 12 + m) / 12) ((y * 12 + m) % 12 + 1) 1
      (daysInMonth ((y * 12 + m) / 12) ((y * 12 + m) % 12 + 1) - 1)
    rw [show (1 : Int) + (daysInMonth ((y * 12 + m) / 12) ((y * 12 + m) % 12 + 1) - 1)
      = daysInMonth ((y * 12 + m) / 12) ((y * 12 + m) % 12 + 1) by ring] at hl
    omega

theorem count_residues (r w : Int) (hr1 : 0 ≤ r) (hr2 : r < 7)
    (hw1 : 0 ≤ w) (hw2 : w < 7) :
    ∀ len : Nat, 28 ≤ len → len ≤ 31 →
    4 ≤ ((List.range len).filter
      (fun i : Nat => ((r + (i : Int)) % 7 == w))).length ∧
    ((List.range len).filter
      (fun i : Nat => ((r + (i : Int)) % 7 == w))).length ≤ 5 := by
  intro len h1 h2
  interval_cases r <;> interval_cases w <;> interval_cases len <;> decide

theorem occurrencesOf_length (y m w : Int) (hw1 : 0 ≤ w) (hw2 : w < 7) :
    4 ≤ (occurrencesOf y m w).length ∧ (occurrencesOf y m w).length ≤ 5 := by
  have hml := monthLen_bounds y m
  unfold occurrencesOf
  rw [List.filter_map, List.length_map]
  have hcongr : (List.range (jsMakeDay y (m + 1) 1 - jsMakeDay y m 1).toNat).filter
      ((fun n => (n + 4) % 7 == w) ∘ (fun i : Nat => jsMakeDay y m 1 + (i : Int)))
      = (List.range (jsMakeDay y (m + 1) 1 - jsMakeDay y m 1).toNat).filter
        (fun i : Nat => (((jsMakeDay y m 1 + 4) % 7 + (i : Int)) % 7 == w)) := by
    apply List.filter_congr
    intro i hi
    have harith : (jsMakeDay y m 1 + (i : Int) + 4) % 7
        = ((jsMakeDay y m 1 + 4) % 7 + (i : Int)) % 7 := by omega
    simp only [Function.comp]
    rw [harith]
  rw [hcongr]
  exact count_residues ((jsMakeDay y m 1 + 4) % 7) w (by omega) (by omega) hw1 hw2
    _ (by omega) (by omega)

/-- C10 (implicit): every month has at least 4 and at most 5 dates on any
given weekday 0-6, so for valid weekday inputs the zero-occurrences NoMatch
branch of calculateNthWeekdayOfMonth is unreachable and every request with
occurrence in [1,4] or occurrence = -1 succeeds with a date. -/
theorem claim_C10 (y m w : Int) (hw1 : 0 ≤ w) (hw2 : w ≤ 6) :
    (4 ≤ (occurrencesOf y m w).length ∧ (occurrencesOf y m w).length ≤ 5) ∧
    (∀ occ : Int, calculateNthWeekdayOfMonth y m w occ ≠ .error .noMatch) ∧
    (∀ occ : Int, (1 ≤ occ ∧ occ ≤ 4) ∨ occ = -1 →
      ∃ d, calculateNthWeekdayOfMonth y m w occ = .ok d) := by
  have hlen := occurrencesOf_length y m w hw1 (by omega)
  have hne : occurrencesOf y m w ≠ [] := by
    intro hc
    rw [hc] at hlen
    simp at hlen
  refine ⟨hlen, ?_, ?_⟩
  · intro occ
    unfold calculateNthWeekdayOfMonth
    split
    · exact absurd (by assumption) hne
    · split_ifs <;> simp
  · intro occ hocc
    unfold calculateNthWeekdayOfMonth
    split
    · exact absurd (by assumption) hne
    · rename_i o os hL
      have hlen2 : (o :: os).length = (occurrencesOf y m w).length := by rw [hL]
      rcases hocc with ⟨h1, h2⟩ | hminus
    
      · rw [if_neg (by omega), dif_pos (by constructor <;> omega)]
        exact ⟨_, rfl⟩
      · rw [if_pos hminus]
        exact ⟨_, rfl⟩

theorem claim_C10_witness :
    ∃ d, calculateNthWeekdayOfMonth 2025 9 1 1 = .ok d :=
  (claim_C10 2025 9 1 (by omega) (by omega)).2.2 1 (Or.inl ⟨by omega, by omega⟩)

theorem occurrencesOf_mem (y m w n : Int) :
    n ∈ occurrencesOf y m w ↔
    jsMakeDay y m 1 ≤ n ∧ n < jsMakeDay y (m + 1) 1 ∧ (n + 4) % 7 = w := by
  unfold occurrencesOf
  simp only [List.mem_filter, List.mem_map, List.mem_range, beq_iff_eq]
  constructor
  · rintro ⟨⟨i, hi, rfl⟩, hc⟩
    exact ⟨by omega, by omega, hc⟩
  · rintro ⟨h1, h2, h3⟩
    exact ⟨⟨(n - jsMakeDay y m 1).toNat, by omega, by omega⟩, h3⟩

theorem occurrencesOf_sorted (y m w : Int) :
    List.Pairwise (· < ·) (occurrencesOf y m w) := by
  unfold occurrencesOf
  apply List.Pairwise.filter
  rw [List.pairwise_map]
  have h : ∀ a b : Nat, a < b →
      jsMakeDay y m 1 + (a : Int) < jsMakeDay y m 1 + (b : Int) := by
    intro a b hab; omega
  exact List.Pairwise.imp (fun hab => h _ _ hab) (List.pairwise_lt_range _)

theorem pairwise_le_getLast (l : List Int) :
    ∀ (hl : List.Pairwise (· < ·) l) (hne : l ≠ []), ∀ x ∈ l, x ≤ l.getLast hne := by
  induction l with
  | nil => intro _ hne; exact absurd rfl hne
  | cons a t ih =>
    intro hl hne x hx
    cases t with
    | nil =>
      rcases List.mem_cons.mp hx with hx | hx
      · subst hx; simp
      · simp at hx
    | cons b t2 =>
      rw [List.getLast_cons (by simp)]
      rcases List.mem_cons.mp hx with hx | hx
      · subst hx
        have hmem := List.getLast_mem (l := b :: t2) (by simp)
        have hlt := (List.pairwise_cons.mp hl).1 _ hmem
        exact le_of_lt hlt
      · exact ih (List.pairwise_cons.mp hl).2 (by simp) x hx

/-- C6: the nth-weekday resolver. The collected occurrence list consists of
exactly the days of the requested month falling on the requested weekday, in
ascending order; occurrence -1 selects the last (maximal) one, occurrence in
[1, count] selects the (occurrence-1)-indexed one, an occurrence beyond the
count fails with OutOfRange, zero occurrences fail with NoMatch; concretely
the 1st Monday of October 2025 is 2025-10-06 and the last Friday of February
2025 is 2025-02-28. -/
theorem claim_C6 :
    calculateNthWeekdayOfMonth 2025 9 1 1 = .ok (toDays 2025 10 6) ∧
    calculateNthWeekdayOfMonth 2025 1 5 (-1) = .ok (toDays 2025 2 28) ∧
    (∀ y m w n : Int, n ∈ occurrencesOf y m w ↔
      (jsMakeDay y m 1 ≤ n ∧ n < jsMakeDay y (m + 1) 1 ∧ (n + 4) % 7 = w)) ∧
    (∀ y m w : Int, List.Pairwise (· < ·) (occurrencesOf y m w)) ∧
    (∀ y m w occ : Int, occurrencesOf y m w = [] →
      calculateNthWeekdayOfMonth y m w occ = .error .noMatch) ∧
    (∀ y m w : Int, occurrencesOf y m w ≠ [] →
      ∃ d, calculateNthWeekdayOfMonth y m w (-1) = .ok d ∧
        d ∈ occurrencesOf y m w ∧ ∀ x ∈ occurrencesOf y m w, x ≤ d) ∧
    (∀ y m w occ : Int, ∀ o : Int, ∀ os : List Int,
      occurrencesOf y m w = o :: os →
      ∀ h : 1 ≤ occ ∧ occ ≤ ((o :: os).length : Int),
      calculateNthWeekdayOfMonth y m w occ
        = .ok ((o :: os).get ⟨(occ - 1).toNat, by omega⟩)) ∧
    (∀ y m w occ : Int, occurrencesOf y m w ≠ [] → 1 ≤ occ →
      ((occurrencesOf y m w).length : Int) < occ →
      calculateNthWeekdayOfMonth y m w occ = .error .outOfRange) := by
  refine ⟨by rfl, by rfl, occurrencesOf_mem, occurrencesOf_sorted, ?_, ?_, ?_, ?_⟩
  · intro y m w occ hL
    unfold calculateNthWeekdayOfMonth
    split
    · rfl
    · rename_i o2 os2 heq
      rw [hL] at heq
      cases heq
  · intro y m w hne
    unfold calculateNthWeekdayOfMonth
    split
    · exact absurd (by assumption) hne
    · rename_i o2 os2 heq
      rw [if_pos rfl]
      refine ⟨(o2 :: os2).getLast (by simp), rfl, ?_, ?_⟩
      · rw [heq]
        exact List.getLast_mem _
      · intro x hx
        rw [heq] at hx
        have hs : List.Pairwise (· < ·) (o2 :: os2) := heq ▸ occurrencesOf_sorted y m w
        exact pairwise_le_getLast _ hs (by simp) x hx
  · intro y m w occ o os hL h
    unfold calculateNthWeekdayOfMonth
    split
    · rename_i heq
      rw [hL] at heq
      cases heq
    · rename_i o2 os2 heq
      have hcons : o :: os = o2 :: os2 := by rw [← hL, ← heq]
      cases hcons
      rw [if_neg (by omega), dif_pos (by constructor <;> omega)]
  · intro y m w occ hne h1 h2
    unfold calculateNthWeekdayOfMonth
    split
    · exact absurd (by assumption) hne
    · rename_i o2 os2 heq
      rw [heq] at h2
      rw [if_neg (by omega), dif_neg (by omega)]

theorem claim_C6_witness :
    calculateNthWeekdayOfMonth 2025 9 1 5 = .error .outOfRange :=
  claim_C6.2.2.2.2.2.2.2 2025 9 1 5 (by decide) (by omega) (by decide)

/-- Round trip: a valid civil date is recovered from its day number. -/
theorem toCivil_toDays (y m d : Int) (h1 : 1 ≤ m) (h2 : m ≤ 12)
    (h3 : 1 ≤ d) (h4 : d ≤ daysInMonth y m) :
    civilYearOf (toDays y m d) = y ∧ monthOf (toDays y m d) = m ∧
    dayOfMonthOf (toDays y m d) = d := by
  interval_cases m
  · rw [daysInMonth_ne2 _ _ (by norm_num)] at h4
    norm_num at h4
    have ht : toDays y 1 d = shiftedToDay (y - 1) (306 + d - 1) := by
      unfold toDays; norm_num
    have hrt := shiftedYearOf_shiftedToDay (y - 1) (306 + d - 1)
      (by omega) (by omega) (by omega)
    unfold civilYearOf monthOf dayOfMonthOf
    rw [ht, hrt.1, hrt.2]
    split_ifs with hA hB <;> omega
  · rw [daysInMonth_feb] at h4
    have ht : toDays y 2 d = shiftedToDay (y - 1) (337 + d - 1) := by
      unfold toDays; norm_num
    have h365 : 337 + d - 1 = 365 → shiftedLeap (y - 1) := by
      intro h
      unfold shiftedLeap
      split_ifs at h4 <;> omega
    have hrt := shiftedYearOf_shiftedToDay (y - 1) (337 + d - 1)
      (by omega) (by split_ifs at h4 <;> omega) h365
    unfold civilYearOf monthOf dayOfMonthOf
    rw [ht, hrt.1, hrt.2]
    split_ifs with hA hB <;> omega
  · rw [daysInMonth_ne2 _ _ (by norm_num)] at h4
    norm_num at h4
    have ht : toDays y 3 d = shiftedToDay (y) (0 + d - 1) := by
      unfold toDays; norm_num
    have hrt := shiftedYearOf_shiftedToDay (y) (0 + d - 1)
      (by omega) (by omega) (by omega)
    unfold civilYearOf monthOf dayOfMonthOf
    rw [ht, hrt.1, hrt.2]
    split_ifs with hA hB <;> omega
  · rw [daysInMonth_ne2 _ _ (by norm_num)] at h4
    norm_num at h4
    have ht : toDays y 4 d = shiftedToDay (y) (31 + d - 1) := by
      unfold toDays; norm_num
    have hrt := shiftedYearOf_shiftedToDay (y) (31 + d - 1)
      (by omega) (by omega) (by omega)
    unfold civilYearOf monthOf dayOfMonthOf
    rw [ht, hrt.1, hrt.2]
    split_ifs with hA hB <;> omega
  · rw [daysInMonth_ne2 _ _ (by norm_num)] at h4
    norm_num at h4
    have ht : toDays y 5 d = shiftedToDay (y) (61 + d - 1) := by
      unfold toDays; norm_num
    have hrt := shiftedYearOf_shiftedToDay (y) (61 + d - 1)
      (by omega) (by omega) (by omega)
    unfold civilYearOf monthOf dayOfMonthOf
    rw [ht, hrt.1, hrt.2]
    split_ifs with hA hB <;> omega
  · rw [daysInMonth_ne2 _ _ (by norm_num)] at h4
    norm_num at h4
    have ht : toDays y 6 d = shiftedToDay (y) (92 + d - 1) := by
      unfold toDays; norm_num
    have hrt := shiftedYearOf_shiftedToDay (y) (92 + d - 1)
      (by omega) (by omega) (by omega)
    unfold civilYearOf monthOf dayOfMonthOf
    rw [ht, hrt.1, hrt.2]
    split_ifs with hA hB <;> omega
  · rw [daysInMonth_ne2 _ _ (by norm_num)] at h4
    norm_num at h4
    have ht : toDays y 7 d = shiftedToDay (y) (122 + d - 1) := by
      unfold toDays; norm_num
    have hrt := shiftedYearOf_shiftedToDay (y) (122 + d - 1)
      (by omega) (by omega) (by omega)
    unfold civilYearOf monthOf dayOfMonthOf
    rw [ht, hrt.1, hrt.2]
    split_ifs with hA hB <;> omega
  · rw [daysInMonth_ne2 _ _ (by norm_num)] at h4
    norm_num at h4
    have ht : toDays y 8 d = shiftedToDay (y) (153 + d - 1) := by
      unfold toDays; norm_num
    have hrt := shiftedYearOf_shiftedToDay (y) (153 + d - 1)
      (by omega) (by omega) (by omega)
    unfold civilYearOf monthOf dayOfMonthOf
    rw [ht, hrt.1, hrt.2]
    split_ifs with hA hB <;> omega
  · rw [daysInMonth_ne2 _ _ (by norm_num)] at h4
    norm_num at h4
    have ht : toDays y 9 d = shiftedToDay (y) (184 + d - 1) := by
      unfold toDays; norm_num
    have hrt := shiftedYearOf_shiftedToDay (y) (184 + d - 1)
      (by omega) (by omega) (by omega)
    unfold civilYearOf monthOf dayOfMonthOf
    rw [ht, hrt.1, hrt.2]
    split_ifs with hA hB <;> omega
  · rw [daysInMonth_ne2 _ _ (by norm_num)] at h4
    norm_num at h4
    have ht : toDays y 10 d = shiftedToDay (y) (214 + d - 1) := by
      unfold toDays; norm_num
    have hrt := shiftedYearOf_shiftedToDay (y) (214 + d - 1)
      (by omega) (by omega) (by omega)
    unfold civilYearOf monthOf dayOfMonthOf
    rw [ht, hrt.1, hrt.2]
    split_ifs with hA hB <;> omega
  · rw [daysInMonth_ne2 _ _ (by norm_num)] at h4
    norm_num at h4
    have ht : toDays y 11 d = shiftedToDay (y) (245 + d - 1) := by
      unfold toDays; norm_num
    have hrt := shiftedYearOf_shiftedToDay (y) (245 + d - 1)
      (by omega) (by omega) (by omega)
    unfold civilYearOf monthOf dayOfMonthOf
    rw [ht, hrt.1, hrt.2]
    split_ifs with hA hB <;> omega
  · rw [daysInMonth_ne2 _ _ (by norm_num)] at h4
    norm_num at h4
    have ht : toDays y 12 d = shiftedToDay (y) (275 + d - 1) := by
      unfold toDays; norm_num
    have hrt := shiftedYearOf_shiftedToDay (y) (275 + d - 1)
      (by omega) (by omega) (by omega)
    unfold civilYearOf monthOf dayOfMonthOf
    rw [ht, hrt.1, hrt.2]
    split_ifs with hA hB <;> omega

theorem calculateStartTime_yearly (p : RecurrencePattern) (ref : Int)
    (cfg : YearlyConfig) (hf : p.frequency = .yearly)
    (hc : p.yearlyConfig = some cfg) :
    calculateStartTime p ref = .ok (mkDate (getFullYear ref) (cfg.month - 1)
      (if getDaysInMonthJS (mkDate (getFullYear ref) (cfg.month - 1) 1) <
          (if cfg.month = 2 ∧ cfg.day = 29 ∧
              ¬(isLeapYear (getFullYear (getFullYear ref)) = true)
            then 28 else cfg.day)
        then getDaysInMonthJS (mkDate (getFullYear ref) (cfg.month - 1) 1)
        else if cfg.month = 2 ∧ cfg.day = 29 ∧
            ¬(isLeapYear (getFullYear (getFullYear ref)) = true)
          then 28 else cfg.day) + 19 * 3600000) := by
  unfold calculateStartTime
  rw [hf, hc]

theorem daysInMonth_ge28 (y m : Int) : 28 ≤ daysInMonth y m := by
  unfold daysInMonth
  split_ifs <;> omega

/-- The year date-fns isLeapYear actually tests when handed a year number:
a sane year number read as milliseconds lands on Dec 31 1969 or Jan 1 1970,
so the test is false for every reference date. -/
theorem isLeapYear_of_year_number (y : Int) (h1 : -100000 ≤ y)
    (h2 : y ≤ 100000) : isLeapYear (getFullYear y) = false := by
  have hjd : jsDay y = -1 ∨ jsDay y = 0 := by
    unfold jsDay
    omega
  unfold getFullYear
  rcases hjd with h | h <;> rw [h] <;> decide

/-- C7 is a bug in the source, demonstrated on the model: for every yearly
pattern configured month=2, day=29 and every reference date in a sane year
(|year| ≤ 100000), the computed start falls on February 28 — in leap years
too. recurrenceService passes the bare year number to date-fns isLeapYear,
which reads a number as a millisecond timestamp (an instant in 1969/1970,
never a leap year), so the not-leap substitution of day 28 always fires,
while the spec promises day 29 in leap years such as 2024. -/
theorem claim_C7 (p : RecurrencePattern) (ref : Int)
    (hf : p.frequency = .yearly) (hc : p.yearlyConfig = some ⟨2, 29⟩)
    (hy1 : -100000 ≤ getFullYear ref) (hy2 : getFullYear ref ≤ 100000) :
    ∃ t, calculateStartTime p ref = .ok t ∧
      monthOf (jsDay t) = 2 ∧ dayOfMonthOf (jsDay t) = 28 := by
  rw [calculateStartTime_yearly p ref ⟨2, 29⟩ hf hc]
  rw [show ((⟨2, 29⟩ : YearlyConfig)).month = 2 from rfl,
    show ((⟨2, 29⟩ : YearlyConfig)).day = 29 from rfl]
  have hdim : 28 ≤ getDaysInMonthJS (mkDate (getFullYear ref) (2 - 1) 1) := by
    unfold getDaysInMonthJS
    exact daysInMonth_ge28 _ _
  have hday1 : (if (2:ℤ) = 2 ∧ (29:ℤ) = 29 ∧
      ¬(isLeapYear (getFullYear (getFullYear ref)) = true)
      then (28:ℤ) else 29) = 28 := by
    rw [isLeapYear_of_year_number (getFullYear ref) hy1 hy2]
    decide
  rw [hday1]
  rw [if_neg (by omega)]
  set yr := (if 0 ≤ getFullYear ref ∧ getFullYear ref ≤ 99
    then 1900 + getFullYear ref else getFullYear ref) with hyr
  have hmk : mkDate (getFullYear ref) (2 - 1) 28 = toDays yr 2 28 * 86400000 := by
    unfold mkDate
    rw [← hyr, jsMakeDay_eq _ _ _ (by omega) (by omega),
      show (2:ℤ) - 1 + 1 = 2 by ring]
    have hl := toDays_lin yr 2 1 27
    rw [show (1:ℤ) + 27 = 28 by ring] at hl
    omega
  rw [hmk]
  have hjt : jsDay (toDays yr 2 28 * 86400000 + 19 * 3600000)
      = toDays yr 2 28 := by
    unfold jsDay
    omega
  refine ⟨_, rfl, ?_, ?_⟩ <;> rw [hjt]
  · exact (toCivil_toDays yr 2 28 (by omega) (by omega) (by omega)
      (by have := daysInMonth_ge28 yr 2; omega)).2.1
  · exact (toCivil_toDays yr 2 28 (by omega) (by omega) (by omega)
      (by have := daysInMonth_ge28 yr 2; omega)).2.2

theorem claim_C7_witness :
    ∃ t, calculateStartTime
        (RecurrencePattern.mk [] [] .yearly 1 60 none
          (some (YearlyConfig.mk 2 29)) none false true)
        (mkDate 2024 0 1) = .ok t ∧
      monthOf (jsDay t) = 2 ∧ dayOfMonthOf (jsDay t) = 28 :=
  claim_C7
    (RecurrencePattern.mk [] [] .yearly 1 60 none
      (some (YearlyConfig.mk 2 29)) none false true)
    (mkDate 2024 0 1) rfl rfl (by decide) (by decide)


theorem natDigits_len_le2 : ∀ n : Nat, n < 100 → (natDigits n).length ≤ 2 := by
  decide

theorem padStart2_len (s : List Char) (h : s.length ≤ 2) :
    (padStart2 s).length = 2 := by
  unfold padStart2
  split_ifs with h2
  · simp only [List.length_append, List.length_replicate]
    omega
  · omega

theorem intToStr_len_le2 (w : Int) (h1 : 0 ≤ w) (h2 : w ≤ 99) :
    (intToStr w).length ≤ 2 := by
  unfold intToStr
  rw [if_neg (by omega)]
  exact natDigits_len_le2 w.natAbs (by omega)

/-- C4: period key formats. Weekly and n_per_period keys are the decimal ISO
week-year, "-W", and the two-character zero-padded ISO week (in 1..53);
monthly and nth_weekday_of_month keys are the decimal calendar year, "-", and
the two-character zero-padded month (in 1..12); yearly keys are the decimal
year; every_n_days has no period key and fails with UnsupportedFrequency;
concretely the weekly key of 2025-10-10 is "2025-W41". -/
theorem claim_C4 :
    (∀ t : Int, ∀ f : Frequency, f = .weekly ∨ f = .n_per_period →
      getPeriodKey t f
        = .ok (intToStr (getISOWeekYear t) ++ ['-', 'W']
            ++ padStart2 (intToStr (getISOWeek t)))
        ∧ 1 ≤ getISOWeek t ∧ getISOWeek t ≤ 53
        ∧ (padStart2 (intToStr (getISOWeek t))).length = 2) ∧
    (∀ t : Int, ∀ f : Frequency, f = .monthly ∨ f = .nth_weekday_of_month →
      getPeriodKey t f
        = .ok (intToStr (getFullYear t) ++ ['-']
            ++ padStart2 (intToStr (getMonthJS t + 1)))
        ∧ 1 ≤ getMonthJS t + 1 ∧ getMonthJS t + 1 ≤ 12
        ∧ (padStart2 (intToStr (getMonthJS t + 1))).length = 2) ∧
    (∀ t : Int, getPeriodKey t .yearly = .ok (intToStr (getFullYear t))) ∧
    (∀ t : Int, getPeriodKey t .every_n_days = .error .unsupportedFrequency) ∧
    getPeriodKey (mkDate 2025 9 10) .weekly = .ok ("2025-W41".data) := by
  refine ⟨?_, ?_, fun t => rfl, fun t => rfl, by rfl⟩
  · intro t f hf
    have hw := isoWeek_spec t
    have hlen : (padStart2 (intToStr (getISOWeek t))).length = 2 :=
      padStart2_len _ (intToStr_len_le2 _ (by omega) (by omega))
    rcases hf with rfl | rfl <;> exact ⟨rfl, hw.1, hw.2.1, hlen⟩
  · intro t f hf
    have hm := toCivil_bounds (jsDay t)
    have hmm : 1 ≤ getMonthJS t + 1 ∧ getMonthJS t + 1 ≤ 12 := by
      unfold getMonthJS
      omega
    have hlen : (padStart2 (intToStr (getMonthJS t + 1))).length = 2 :=
      padStart2_len _ (intToStr_len_le2 _ (by omega) (by omega))
    rcases hf with rfl | rfl <;> exact ⟨rfl, hmm.1, hmm.2, hlen⟩

theorem claim_C8_counterexample :
    ∃ v : Int, getPeriodEndDate ("2025-W05x".data) .weekly = .ok (some v) := by
  have hsplit : splitJS ['-', 'W'] "2025-W05x".data
      = ["2025".data, "05x".data] := by
    simp +decide [splitJS, splitAux, List.isPrefixOf]
  refine ⟨weekEndDate 2025 5, ?_⟩
  unfold getPeriodEndDate
  rw [if_pos (Or.inl rfl), hsplit]
  have hp0 : parseIntOpt (["2025".data, "05x".data].get? 0) = some 2025 := by
    decide
  have hp1 : parseIntOpt (["2025".data, "05x".data].get? 1) = some 5 := by
    decide
  rw [hp0, hp1]

/-- C8 (amended): getPeriodEndDate rejects no key at all for the five period
frequencies. There is no parse error: every key, well-formed or not, yields
`.ok`; an unparseable component merely degrades the payload to an invalid
date (`none`), and keys with numeric prefixes such as "2025-W05x" are parsed
leniently and still produce an instant. -/
theorem claim_C8 (key : Str) (f : Frequency) (hf : f ≠ .every_n_days) :
    ∃ r : Option Int, getPeriodEndDate key f = .ok r :=
  getPeriodEndDate_ok key f hf

theorem claim_C8_witness :
    ∃ r : Option Int, getPeriodEndDate [] .weekly = .ok r :=
  claim_C8 [] .weekly (by decide)

theorem claim_C4_witness :
    getPeriodKey (mkDate 2025 9 10) .weekly
      = .ok (intToStr (getISOWeekYear (mkDate 2025 9 10)) ++ ['-', 'W']
          ++ padStart2 (intToStr (getISOWeek (mkDate 2025 9 10)))) :=
  (claim_C4.1 (mkDate 2025 9 10) .weekly (Or.inl rfl)).1

theorem splitAux_no_dash (b : List Char) :
    ∀ cur, (∀ c ∈ b, ¬(c = '-')) → splitAux ['-'] cur b = [cur.reverse ++ b] := by
  induction b with
  | nil => intro cur _; simp [splitAux]
  | cons c r ih =>
    intro cur hb
    have hc : ¬(c = '-') := hb c (by simp)
    have hpre : (['-'].isPrefixOf (c :: r)) = false := by
      simp [List.isPrefixOf]
      intro h
      exact hc h.symm
    rw [splitAux, hpre]
    simp only [Bool.false_eq_true, if_false]
    rw [ih (c :: cur) (fun x hx => hb x (by simp [hx]))]
    simp

theorem splitAux_dash (a : List Char) :
    ∀ cur b, (∀ c ∈ a, ¬(c = '-')) →
    splitAux ['-'] cur (a ++ '-' :: b)
      = (cur.reverse ++ a) :: splitAux ['-'] [] b := by
  induction a with
  | nil =>
    intro cur b _
    rw [List.nil_append, splitAux]
    simp [List.isPrefixOf]
  | cons c r ih =>
    intro cur b ha
    have hc : ¬(c = '-') := ha c (by simp)
    have hpre : (['-'].isPrefixOf (c :: (r ++ '-' :: b))) = false := by
      simp [List.isPrefixOf]
      intro h
      exact hc h.symm
    rw [List.cons_append, splitAux, hpre]
    simp only [Bool.false_eq_true, if_false]
    rw [ih (c :: cur) b (fun x hx => ha x (by simp [hx]))]
    simp

theorem splitAux_noW (b : List Char) :
    ∀ cur, (∀ c ∈ b, ¬(c = 'W')) →
    splitAux ['-', 'W'] cur b = [cur.reverse ++ b] := by
  induction b with
  | nil => intro cur _; simp [splitAux]
  | cons c r ih =>
    intro cur hb
    have hpre : (['-', 'W'].isPrefixOf (c :: r)) = false := by
      cases r with
      | nil => simp [List.isPrefixOf]
      | cons c2 r2 =>
        have hc2 : ¬(c2 = 'W') := hb c2 (by simp)
        simp [List.isPrefixOf]
        intro _ h
        exact hc2 h.symm
    rw [splitAux, hpre]
    simp only [Bool.false_eq_true, if_false]
    rw [ih (c :: cur) (fun x hx => hb x (by simp [hx]))]
    simp

theorem splitAux_dashW (a : List Char) :
    ∀ cur b, (∀ c ∈ a, ¬(c = 'W')) →
    splitAux ['-', 'W'] cur (a ++ '-' :: 'W' :: b)
      = (cur.reverse ++ a) :: splitAux ['-', 'W'] [] b := by
  induction a with
  | nil =>
    intro cur b _
    rw [List.nil_append, splitAux]
    simp [List.isPrefixOf]
  | cons c r ih =>
    intro cur b ha
    have hpre : (['-', 'W'].isPrefixOf (c :: (r ++ '-' :: 'W' :: b))) = false := by
      cases hr : r with
      | nil =>
        simp [List.isPrefixOf]
      | cons c2 r2 =>
        have hc2 : ¬(c2 = 'W') := ha c2 (by simp [hr])
        simp [List.isPrefixOf]
        intro _ h
        exact hc2 h.symm
    rw [List.cons_append, splitAux, hpre]
    simp only [Bool.false_eq_true, if_false]
    rw [ih (c :: cur) b (fun x hx => ha x (by simp [hx]))]
    simp

theorem intToStr_no_dash (y : Int) (hy : 0 ≤ y) :
    ∀ c ∈ intToStr y, ¬(c = '-') := by
  unfold intToStr
  rw [if_neg (by omega)]
  intro c hc he
  have hd := natDigits_all_digits y.natAbs c hc
  rw [he] at hd
  exact absurd hd (by decide)

theorem intToStr_no_W (y : Int) : ∀ c ∈ intToStr y, ¬(c = 'W') := by
  unfold intToStr
  split_ifs
  · intro c hc he
    rcases List.mem_cons.mp hc with h | h
    · rw [he] at h
      exact absurd h (by decide)
    · have hd := natDigits_all_digits y.natAbs c h
      rw [he] at hd
      exact absurd hd (by decide)
  · intro c hc he
    have hd := natDigits_all_digits y.natAbs c hc
    rw [he] at hd
    exact absurd hd (by decide)

theorem padStart2_chars (s : List Char) (p : Char → Prop) (h0 : p '0')
    (hs : ∀ c ∈ s, p c) : ∀ c ∈ padStart2 s, p c := by
  unfold padStart2
  split_ifs
  · intro c hc
    rcases List.mem_append.mp hc with h | h
    · rw [List.eq_of_mem_replicate h]
      exact h0
    · exact hs c h
  · exact hs

theorem parseIntJS_padStart2_intToStr (w : Int) (h : 0 ≤ w) :
    parseIntJS (padStart2 (intToStr w)) = some w := by
  unfold intToStr
  rw [if_neg (by omega)]
  rw [parseIntJS_padStart2_natDigits]
  congr 1
  omega

theorem weekKey_split (t : Int) :
    splitJS ['-', 'W'] (weekKeyOf t)
      = [intToStr (getISOWeekYear t), padStart2 (intToStr (getISOWeek t))] := by
  unfold weekKeyOf splitJS
  have ha := intToStr_no_W (getISOWeekYear t)
  have hb : ∀ c ∈ padStart2 (intToStr (getISOWeek t)), ¬(c = 'W') :=
    padStart2_chars _ _ (by decide) (intToStr_no_W _)
  rw [show intToStr (getISOWeekYear t) ++ ['-', 'W']
        ++ padStart2 (intToStr (getISOWeek t))
      = intToStr (getISOWeekYear t)
        ++ '-' :: 'W' :: padStart2 (intToStr (getISOWeek t)) by simp]
  rw [splitAux_dashW _ [] _ ha, splitAux_noW _ [] hb]
  simp

theorem monthKey_split (t : Int) (hy : 0 ≤ getFullYear t) :
    splitJS ['-'] (monthKeyOf t)
      = [intToStr (getFullYear t), padStart2 (intToStr (getMonthJS t + 1))] := by
  unfold monthKeyOf splitJS
  have hzm : 0 ≤ getMonthJS t + 1 := by
    have hcb := toCivil_bounds (jsDay t)
    unfold getMonthJS
    omega
  have ha := intToStr_no_dash (getFullYear t) hy
  have hb : ∀ c ∈ padStart2 (intToStr (getMonthJS t + 1)), ¬(c = '-') :=
    padStart2_chars _ _ (by decide) (intToStr_no_dash _ hzm)
  rw [show intToStr (getFullYear t) ++ ['-']
        ++ padStart2 (intToStr (getMonthJS t + 1))
      = intToStr (getFullYear t)
        ++ '-' :: padStart2 (intToStr (getMonthJS t + 1)) by simp]
  rw [splitAux_dash _ [] _ ha, splitAux_no_dash _ [] hb]
  simp

theorem toDays_13 (y : Int) : toDays y 13 1 = toDays (y + 1) 1 1 := by
  unfold toDays
  norm_num

theorem jsMakeDay_zero (y m : Int) (h1 : 1 ≤ m) (h2 : m ≤ 12) :
    jsMakeDay y m 0 = toDays y (m + 1) 1 - 1 := by
  by_cases hm : m ≤ 11
  · rw [jsMakeDay_eq y m 0 (by omega) hm]
    ring
  · have hm12 : m = 12 := by omega
    subst hm12
    unfold jsMakeDay
    rw [show (y * 12 + 12) / 12 = y + 1 by omega,
      show (y * 12 + 12) % 12 = 0 by omega,
      show (0:ℤ) + 1 = 1 by norm_num,
      show (12:ℤ) + 1 = 13 by norm_num, toDays_13]
    omega

theorem month_end_succ12 (y m : Int) (hm1 : 1 ≤ m) (hm2 : m ≤ 12) :
    toDays y (m + 1) 1 = toDays y m (daysInMonth y m) + 1 := by
  by_cases h : m ≤ 11
  · exact month_end_succ y m hm1 h
  · have hm12 : m = 12 := by omega
    subst hm12
    rw [show (12:ℤ) + 1 = 13 by norm_num, toDays_13, dec31_succ,
      daysInMonth_ne2 _ _ (by norm_num)]
    norm_num

theorem weekEndDate_eq (y w : Int) (hy : ¬(0 ≤ y ∧ y ≤ 99)) :
    weekEndDate y w
      = (startOfISOWeekD (toDays y 1 4) + 7 * (w - 1) + 7) * 86400000 - 1 := by
  have hj4 : jan4Date y = toDays y 1 4 * 86400000 := by
    unfold jan4Date
    rw [mkDate_no_remap _ _ _ hy]
    rw [jsMakeDay_eq _ _ _ (by norm_num) (by norm_num),
      show (0:ℤ) + 1 = 1 by norm_num]
    have hl := toDays_lin y 1 1 3
    rw [show (1:ℤ) + 3 = 4 by norm_num] at hl
    omega
  unfold weekEndDate weekStartDate firstMondayDate
  rw [show getDate (jan4Date y)
        - (if getDayJS (jan4Date y) = 0 then 7 else getDayJS (jan4Date y)) + 1
      = getDate (jan4Date y)
        + (1 - (if getDayJS (jan4Date y) = 0 then 7 else getDayJS (jan4Date y)))
      by ring]
  rw [jsSetDate_add, jsSetDate_add, jsSetDate_add, hj4]
  unfold getDayJS jsSetHours jsDay startOfISOWeekD
  split_ifs <;> omega

theorem claim_C2_counterexample :
    (getPeriodKey (mkDate (-123) 0 15) .monthly = .ok ("-123-01".data) ∧
      getPeriodEndDate ("-123-01".data) .monthly = .ok none) ∧
    (∃ e, getPeriodKey (toDays 50 1 15 * 86400000) .yearly = .ok ("50".data) ∧
      getPeriodEndDate ("50".data) .yearly = .ok (some e) ∧
      toDays 51 1 1 * 86400000 ≤ e) := by
  constructor
  · have hk : monthKeyOf (mkDate (-123) 0 15) = "-123-01".data := by decide
    constructor
    · show Except.ok (monthKeyOf (mkDate (-123) 0 15))
        = Except.ok ("-123-01".data)
      rw [hk]
    · have hsplit : splitJS ['-'] "-123-01".data
          = ["".data, "123".data, "01".data] := by
        simp +decide [splitJS, splitAux, List.isPrefixOf]
      unfold getPeriodEndDate
      rw [if_neg (by decide), if_pos (Or.inl rfl), hsplit]
      have hp0 : parseIntOpt ((["".data, "123".data, "01".data]).get? 0)
          = none := by decide
      have hp1 : parseIntOpt ((["".data, "123".data, "01".data]).get? 1)
          = some 123 := by decide
      rw [hp0, hp1]
  · refine ⟨jsSetHours (mkDate 50 11 31) 23 59 59 999, ?_, ?_, by decide⟩
    · show Except.ok (yearKeyOf (toDays 50 1 15 * 86400000))
        = Except.ok ("50".data)
      rw [show yearKeyOf (toDays 50 1 15 * 86400000) = "50".data from by decide]
    · unfold getPeriodEndDate
      rw [if_neg (by decide), if_neg (by decide), if_pos rfl]
      rw [show parseIntJS ("50".data) = some 50 from by decide]

/-- C2 (amended): period round trip. For weekly and n_per_period the end
returned for a date's key is the last millisecond of the date's ISO week, and
for yearly the last millisecond of the date's year, provided the key's year
is outside 0..99: the Date constructor that rebuilds the period end remaps a
two-digit year to 1900+year, so keys of years 0..99 land in the wrong
century. For monthly and nth_weekday_of_month the round trip additionally
needs the year non-negative (a negative year's key, starting with '-', is
cut in the wrong place by the '-'-split and degrades to an invalid date), so
it holds from year 100 on; `toDays y 13 1` in the bound is January 1 of the
following year. -/
theorem claim_C2 (t : Int) :
    (∀ f, f = .weekly ∨ f = .n_per_period →
      ¬(0 ≤ getISOWeekYear t ∧ getISOWeekYear t ≤ 99) →
      ∃ k e, getPeriodKey t f = .ok k ∧ getPeriodEndDate k f = .ok (some e) ∧
        startOfISOWeekD (jsDay t) * 86400000 ≤ t ∧ t ≤ e ∧
        e + 1 = (startOfISOWeekD (jsDay t) + 7) * 86400000) ∧
    (∀ f, f = .monthly ∨ f = .nth_weekday_of_month → 100 ≤ getFullYear t →
      ∃ k e, getPeriodKey t f = .ok k ∧ getPeriodEndDate k f = .ok (some e) ∧
        toDays (getFullYear t) (monthOf (jsDay t)) 1 * 86400000 ≤ t ∧ t ≤ e ∧
        e + 1 = toDays (getFullYear t) (monthOf (jsDay t) + 1) 1 * 86400000) ∧
    (¬(0 ≤ getFullYear t ∧ getFullYear t ≤ 99) →
      ∃ k e, getPeriodKey t .yearly = .ok k ∧
        getPeriodEndDate k .yearly = .ok (some e) ∧
        toDays (getFullYear t) 1 1 * 86400000 ≤ t ∧ t ≤ e ∧
        e + 1 = toDays (getFullYear t + 1) 1 1 * 86400000) := by
  have hdiv : t = jsDay t * 86400000 + msWithinDay t ∧ 0 ≤ msWithinDay t ∧
      msWithinDay t < 86400000 := by
    unfold jsDay msWithinDay
    omega
  refine ⟨?_, ?_, ?_⟩
  · intro f hf hYr
    have hiso := isoWeek_spec t
    have hsow := sow_facts (jsDay t)
    have hkey : getPeriodKey t f = .ok (weekKeyOf t) := by
      rcases hf with rfl | rfl <;> rfl
    have hp0 : parseIntOpt ([intToStr (getISOWeekYear t),
        padStart2 (intToStr (getISOWeek t))].get? 0)
        = some (getISOWeekYear t) := parseIntJS_intToStr _
    have hp1 : parseIntOpt ([intToStr (getISOWeekYear t),
        padStart2 (intToStr (getISOWeek t))].get? 1)
        = some (getISOWeek t) := parseIntJS_padStart2_intToStr _ (by omega)
    have hwk : getPeriodEndDate (weekKeyOf t) f
        = .ok (some (weekEndDate (getISOWeekYear t) (getISOWeek t))) := by
      unfold getPeriodEndDate
      rw [if_pos hf, weekKey_split, hp0, hp1]
    have hval : weekEndDate (getISOWeekYear t) (getISOWeek t)
        = (startOfISOWeekD (jsDay t) + 7) * 86400000 - 1 := by
      rw [weekEndDate_eq _ _ hYr]
      have hY : startOfISOWeekD (toDays (getISOWeekYear t) 1 4)
          = startOfISOWeekYearD t := rfl
      rw [hY]
      omega
    exact ⟨weekKeyOf t, weekEndDate (getISOWeekYear t) (getISOWeek t),
      hkey, hwk, by omega, by omega, by omega⟩
  · intro f hf hy
    have hcb : 1 ≤ monthOf (jsDay t) ∧ monthOf (jsDay t) ≤ 12 ∧
        1 ≤ dayOfMonthOf (jsDay t) ∧
        dayOfMonthOf (jsDay t)
          ≤ daysInMonth (getFullYear t) (monthOf (jsDay t)) :=
      toCivil_bounds (jsDay t)
    have hciv : toDays (getFullYear t) (monthOf (jsDay t))
        (dayOfMonthOf (jsDay t)) = jsDay t := toDays_toCivil (jsDay t)
    have hM : getMonthJS t + 1 = monthOf (jsDay t) := by
      unfold getMonthJS
      ring
    have hkey : getPeriodKey t f = .ok (monthKeyOf t) := by
      rcases hf with rfl | rfl <;> rfl
    have hp0 : parseIntOpt ([intToStr (getFullYear t),
        padStart2 (intToStr (getMonthJS t + 1))].get? 0)
        = some (getFullYear t) := parseIntJS_intToStr _
    have hp1 : parseIntOpt ([intToStr (getFullYear t),
        padStart2 (intToStr (getMonthJS t + 1))].get? 1)
        = some (getMonthJS t + 1) := parseIntJS_padStart2_intToStr _ (by omega)
    have hcond : ¬(f = .weekly ∨ f = .n_per_period) := by
      rcases hf with rfl | rfl <;> simp
    have hmk : getPeriodEndDate (monthKeyOf t) f
        = .ok (some (jsSetHours (mkDate (getFullYear t) (getMonthJS t + 1) 0)
            23 59 59 999)) := by
      unfold getPeriodEndDate
      rw [if_neg hcond, if_pos hf, monthKey_split t (by omega), hp0, hp1]
    have hmz : jsMakeDay (getFullYear t) (monthOf (jsDay t)) 0
        = toDays (getFullYear t) (monthOf (jsDay t) + 1) 1 - 1 :=
      jsMakeDay_zero _ _ (by omega) (by omega)
    have hval : jsSetHours (mkDate (getFullYear t) (getMonthJS t + 1) 0)
        23 59 59 999
        = toDays (getFullYear t) (monthOf (jsDay t) + 1) 1 * 86400000 - 1 := by
      rw [hM]
      unfold jsSetHours
      rw [mkDate_no_remap _ _ _ (by omega), hmz]
      unfold jsDay
      omega
    have hup : jsDay t < toDays (getFullYear t) (monthOf (jsDay t) + 1) 1 := by
      have hend := month_end_succ12 (getFullYear t) (monthOf (jsDay t))
        (by omega) (by omega)
      have hmono := toDays_lin (getFullYear t) (monthOf (jsDay t))
        (dayOfMonthOf (jsDay t))
        (daysInMonth (getFullYear t) (monthOf (jsDay t))
          - dayOfMonthOf (jsDay t))
      rw [show dayOfMonthOf (jsDay t)
          + (daysInMonth (getFullYear t) (monthOf (jsDay t))
            - dayOfMonthOf (jsDay t))
          = daysInMonth (getFullYear t) (monthOf (jsDay t)) by ring] at hmono
      omega
    have hlo : toDays (getFullYear t) (monthOf (jsDay t)) 1 ≤ jsDay t := by
      have hmono := toDays_lin (getFullYear t) (monthOf (jsDay t)) 1
        (dayOfMonthOf (jsDay t) - 1)
      rw [show 1 + (dayOfMonthOf (jsDay t) - 1)
          = dayOfMonthOf (jsDay t) by ring] at hmono
      omega
    exact ⟨monthKeyOf t, jsSetHours (mkDate (getFullYear t) (getMonthJS t + 1) 0)
      23 59 59 999, hkey, hmk, by omega, by omega, by omega⟩
  · intro hYr
    have hspan : toDays (getFullYear t) 1 1 ≤ jsDay t ∧
        jsDay t ≤ toDays (getFullYear t) 12 31 := civilYear_span (jsDay t)
    have hd31 : toDays (getFullYear t + 1) 1 1
        = toDays (getFullYear t) 12 31 + 1 := dec31_succ _
    have hyk : getPeriodEndDate (yearKeyOf t) .yearly
        = .ok (some (jsSetHours (mkDate (getFullYear t) 11 31) 23 59 59 999)) := by
      unfold getPeriodEndDate
      rw [if_neg (by decide), if_neg (by decide), if_pos rfl]
      unfold yearKeyOf
      rw [parseIntJS_intToStr]
    have hval : jsSetHours (mkDate (getFullYear t) 11 31) 23 59 59 999
        = toDays (getFullYear t + 1) 1 1 * 86400000 - 1 := by
      have hmk31 : jsMakeDay (getFullYear t) 11 31
          = toDays (getFullYear t) 12 31 := by
        rw [jsMakeDay_eq _ _ _ (by norm_num) (by norm_num),
          show (11:ℤ) + 1 = 12 by norm_num]
        have hl := toDays_lin (getFullYear t) 12 1 30
        rw [show (1:ℤ) + 30 = 31 by norm_num] at hl
        omega
      unfold jsSetHours
      rw [mkDate_no_remap _ _ _ hYr, hmk31]
      unfold jsDay
      rw [hd31]
      omega
    exact ⟨yearKeyOf t, jsSetHours (mkDate (getFullYear t) 11 31) 23 59 59 999,
      rfl, hyk, by omega, by omega, by omega⟩

theorem claim_C2_witness :
    ∃ k e, getPeriodKey (mkDate 2025 9 10) .monthly = .ok k ∧
      getPeriodEndDate k .monthly = .ok (some e) ∧
      toDays (getFullYear (mkDate 2025 9 10)) (monthOf (jsDay (mkDate 2025 9 10)))
        1 * 86400000 ≤ mkDate 2025 9 10 ∧
      mkDate 2025 9 10 ≤ e ∧
      e + 1 = toDays (getFullYear (mkDate 2025 9 10))
        (monthOf (jsDay (mkDate 2025 9 10)) + 1) 1 * 86400000 :=
  (claim_C2 (mkDate 2025 9 10)).2.1 .monthly (Or.inl rfl) (by decide)

/-- A fixed n_per_period pattern (frequencyValue 3) used as a test vector. -/
def c3pat : RecurrencePattern :=
  ⟨"p1".data, [], .n_per_period, 3, 60, none, none, none, false, true⟩

/-- A single persisted completion of c3pat in ISO week 2025-W41. -/
def c3ev : Event :=
  ⟨[], some 0, 60, some ("p1".data), some ("2025-W41".data), true, none, []⟩

theorem claim_C3_counterexample :
    generateVirtualEventsForRange [c3pat] [c3ev]
      (mkDate 2025 9 6) (mkDate 2025 9 6) = .ok [] ∧
    getPatternCompletionCount [c3ev] c3pat.id ("2025-W41".data) = 1 ∧
    c3pat.frequencyValue = 3 := by
  refine ⟨?_, by decide, rfl⟩
  have hloop : getPeriodsInRange (mkDate 2025 9 6) (mkDate 2025 9 6) .n_per_period
      = [(weekKeyOf (startOfWeekMs (mkDate 2025 9 6)),
          startOfWeekMs (mkDate 2025 9 6))] := by
    unfold getPeriodsInRange
    rw [weeklyPeriodsLoop, dif_pos (by decide), jsSetDate_add,
      weeklyPeriodsLoop, dif_neg (by decide)]
  unfold generateVirtualEventsForRange
  rw [show ([c3pat].filter (fun p => p.active)) = [c3pat] from rfl]
  rw [genForPatterns, if_neg (by decide),
    show c3pat.frequency = Frequency.n_per_period from rfl, hloop]
  rw [genForPattern, if_pos (by decide), genForPattern]
  rfl

/-- C3 (amended): per period, the generator emits a virtual event if and only
if NO persisted event at all exists for (pattern.id, periodKey) and, for
n_per_period, the completion count has not reached frequencyValue. The
existing-event check fires first, so an n_per_period period with some
persisted events but fewer than frequencyValue is still suppressed (the inner
count threshold alone never decides emission). -/
theorem claim_C3 (events : List Event) (p : RecurrencePattern)
    (periods : List (Str × Int)) (hf : p.frequency ≠ .every_n_days) :
    ∃ vs, genForPattern events p periods = .ok vs ∧
      ∀ pk : Str,
        ((∃ v ∈ vs, v.periodKey = pk) ↔
          ((∃ pr ∈ periods, pr.1 = pk) ∧
            findFirstEvent events p.id pk = none ∧
            ¬(p.frequency = .n_per_period ∧
              p.frequencyValue ≤ getPatternCompletionCount events p.id pk))) := by
  induction periods with
  | nil =>
    refine ⟨[], rfl, ?_⟩
    intro pk
    simp
  | cons pr rest ih =>
    obtain ⟨vs, hvs, hiff⟩ := ih
    obtain ⟨k, d⟩ := pr
    rw [genForPattern]
    split_ifs with hA hB
    · refine ⟨vs, hvs, ?_⟩
      intro pk
      rw [hiff pk]
      constructor
      · rintro ⟨⟨q, hq, hqk⟩, hffe, hcnt⟩
        exact ⟨⟨q, List.mem_cons_of_mem _ hq, hqk⟩, hffe, hcnt⟩
      · rintro ⟨⟨q, hq, hqk⟩, hffe, hcnt⟩
        rcases List.mem_cons.mp hq with heq | hmem
        · subst heq
          simp at hqk
          subst hqk
          rw [hffe] at hA
          simp at hA
        · exact ⟨⟨q, hmem, hqk⟩, hffe, hcnt⟩
    · refine ⟨vs, hvs, ?_⟩
      intro pk
      rw [hiff pk]
      constructor
      · rintro ⟨⟨q, hq, hqk⟩, hffe, hcnt⟩
        exact ⟨⟨q, List.mem_cons_of_mem _ hq, hqk⟩, hffe, hcnt⟩
      · rintro ⟨⟨q, hq, hqk⟩, hffe, hcnt⟩
        rcases List.mem_cons.mp hq with heq | hmem
        · subst heq
          simp at hqk
          subst hqk
          exact absurd hB hcnt
        · exact ⟨⟨q, hmem, hqk⟩, hffe, hcnt⟩
    · have hffn : findFirstEvent events p.id k = none := by
        cases hopt : findFirstEvent events p.id k with
        | none => rfl
        | some ev =>
          rw [hopt] at hA
          exact absurd rfl hA
      obtain ⟨r, hr⟩ := getPeriodEndDate_ok k p.frequency hf
      have hcv : createVirtualEvent p k p.frequency
          = .ok (VirtualEvent.mk
              ("virtual-".data ++ p.id ++ "-".data ++ k) p.title
              p.durationMinutes p.id k ("recurring".data)
              p.flexibleScheduling r []) := by
        unfold createVirtualEvent
        rw [hr]
        rfl
      refine ⟨(VirtualEvent.mk
          ("virtual-".data ++ p.id ++ "-".data ++ k) p.title
          p.durationMinutes p.id k ("recurring".data)
          p.flexibleScheduling r []) :: vs, ?_, ?_⟩
      · rw [hcv, hvs]
        rfl
      · intro pk
        by_cases hpk : pk = k
        · subst hpk
          constructor
          · intro _
            exact ⟨⟨(pk, d), List.mem_cons_self _ _, rfl⟩, hffn, hB⟩
          · intro _
            exact ⟨VirtualEvent.mk
              ("virtual-".data ++ p.id ++ "-".data ++ pk) p.title
              p.durationMinutes p.id pk ("recurring".data)
              p.flexibleScheduling r [], List.mem_cons_self _ _, rfl⟩
        · constructor
          · rintro ⟨v, hv, hvpk⟩
            rcases List.mem_cons.mp hv with heq | hmem
            · subst heq
              exact absurd hvpk.symm hpk
            · rcases (hiff pk).mp ⟨v, hmem, hvpk⟩ with ⟨⟨q, hq, hqk⟩, h2, h3⟩
              exact ⟨⟨q, List.mem_cons_of_mem _ hq, hqk⟩, h2, h3⟩
          · rintro ⟨⟨q, hq, hqk⟩, hffe, hcnt⟩
            rcases List.mem_cons.mp hq with heq | hmem
            · subst heq
              simp at hqk
              exact absurd hqk.symm hpk
            · obtain ⟨v, hv, hvpk⟩ := (hiff pk).mpr ⟨⟨q, hmem, hqk⟩, hffe, hcnt⟩
              exact ⟨v, List.mem_cons_of_mem _ hv, hvpk⟩

theorem claim_C3_witness :
    ∃ vs, genForPattern [] c3pat [(("2025-W41".data : Str), (0:Int))] = .ok vs ∧
      ∀ pk : Str,
        ((∃ v ∈ vs, v.periodKey = pk) ↔
          ((∃ pr ∈ [(("2025-W41".data : Str), (0:Int))], pr.1 = pk) ∧
            findFirstEvent [] c3pat.id pk = none ∧
            ¬(c3pat.frequency = .n_per_period ∧
              c3pat.frequencyValue ≤ getPatternCompletionCount [] c3pat.id pk))) :=
  claim_C3 [] c3pat [(("2025-W41".data : Str), (0:Int))] (by decide)

theorem sow_of_monday (n : Int) (h : n % 7 = 4) : startOfISOWeekD n = n := by
  unfold startOfISOWeekD
  split_ifs <;> omega

theorem getPeriodEndDate_weekKey (t : Int) :
    getPeriodEndDate (weekKeyOf t) .weekly
      = .ok (some (weekEndDate (getISOWeekYear t) (getISOWeek t))) := by
  have hiso := isoWeek_spec t
  have hp0 : parseIntOpt ([intToStr (getISOWeekYear t),
      padStart2 (intToStr (getISOWeek t))].get? 0)
      = some (getISOWeekYear t) := parseIntJS_intToStr _
  have hp1 : parseIntOpt ([intToStr (getISOWeekYear t),
      padStart2 (intToStr (getISOWeek t))].get? 1)
      = some (getISOWeek t) := parseIntJS_padStart2_intToStr _ (by omega)
  unfold getPeriodEndDate
  rw [if_pos (Or.inl rfl), weekKey_split, hp0, hp1]

theorem weeklyEnd_of_key (t : Int)
    (hYr : ¬(0 ≤ getISOWeekYear t ∧ getISOWeekYear t ≤ 99)) :
    getPeriodEndDate (weekKeyOf t) .weekly
      = .ok (some ((startOfISOWeekD (jsDay t) + 7) * 86400000 - 1)) := by
  rw [getPeriodEndDate_weekKey]
  have hiso := isoWeek_spec t
  have hval : weekEndDate (getISOWeekYear t) (getISOWeek t)
      = (startOfISOWeekD (jsDay t) + 7) * 86400000 - 1 := by
    rw [weekEndDate_eq _ _ hYr]
    have hY : startOfISOWeekD (toDays (getISOWeekYear t) 1 4)
        = startOfISOWeekYearD t := rfl
    rw [hY]
    omega
  rw [hval]

theorem createVirtualEvent_fields (p : RecurrencePattern) (k : Str)
    (f : Frequency) (v : VirtualEvent) (h : createVirtualEvent p k f = .ok v) :
    v.patternId = p.id ∧ v.periodKey = k := by
  unfold createVirtualEvent at h
  rcases hg : getPeriodEndDate k f with err | r
  · rw [hg] at h
    simp [bind, Except.bind] at h
  · rw [hg] at h
    simp only [bind, Except.bind, pure, Except.pure, Except.ok.injEq] at h
    subst h
    exact ⟨rfl, rfl⟩

theorem genForPattern_inv (events : List Event) (p : RecurrencePattern) :
    ∀ periods vs, genForPattern events p periods = .ok vs →
      ∀ v ∈ vs, v.patternId = p.id ∧
        findFirstEvent events p.id v.periodKey = none := by
  intro periods
  induction periods with
  | nil =>
    intro vs h v hv
    rw [genForPattern] at h
    injection h with h2
    subst h2
    exact absurd hv (List.not_mem_nil v)
  | cons pr rest ih =>
    obtain ⟨k, d⟩ := pr
    intro vs h v hv
    rw [genForPattern] at h
    split_ifs at h with hA hB
    · exact ih vs h v hv
    · exact ih vs h v hv
    · rcases hc : createVirtualEvent p k p.frequency with err | v0
      · rw [hc] at h
        simp [bind, Except.bind] at h
      · rw [hc] at h
        rcases hg : genForPattern events p rest with err2 | vs2
        · rw [hg] at h
          simp [bind, Except.bind] at h
        · rw [hg] at h
          simp only [bind, Except.bind, pure, Except.pure] at h
          injection h with h2
          subst h2
          rcases List.mem_cons.mp hv with hveq | hvmem
          · subst hveq
            have hcf := createVirtualEvent_fields p k p.frequency v hc
            have hffn : findFirstEvent events p.id k = none := by
              cases hopt : findFirstEvent events p.id k with
              | none => rfl
              | some ev2 =>
                rw [hopt] at hA
                exact absurd rfl hA
            rw [hcf.2]
            exact ⟨hcf.1, hffn⟩
          · exact ih vs2 hg v hvmem

theorem genForPatterns_inv (events : List Event) (s e : Int) :
    ∀ ps vs, genForPatterns events s e ps = .ok vs →
      ∀ v ∈ vs, findFirstEvent events v.patternId v.periodKey = none := by
  intro ps
  induction ps with
  | nil =>
    intro vs h v hv
    rw [genForPatterns] at h
    injection h with h2
    subst h2
    exact absurd hv (List.not_mem_nil v)
  | cons p ps ih =>
    intro vs h v hv
    rw [genForPatterns] at h
    split_ifs at h with hev
    · rcases hg : genForPatterns events s e ps with err | vs2
      · rw [hg] at h
        simp [bind, Except.bind, pure, Except.pure] at h
      · rw [hg] at h
        simp only [bind, Except.bind, pure, Except.pure] at h
        injection h with h2
        subst h2
        rw [List.nil_append] at hv
        exact ih vs2 hg v hv
    · rcases hgp : genForPattern events p (getPeriodsInRange s e p.frequency)
          with err | vs1
      · rw [hgp] at h
        simp [bind, Except.bind] at h
      · rw [hgp] at h
        rcases hg : genForPatterns events s e ps with err2 | vs2
        · rw [hg] at h
          simp [bind, Except.bind, pure, Except.pure] at h
        · rw [hg] at h
          simp only [bind, Except.bind, pure, Except.pure] at h
          injection h with h2
          subst h2
          rcases List.mem_append.mp hv with hv1 | hv2
          · have hi := genForPattern_inv events p _ vs1 hgp v hv1
            rw [hi.1]
            exact hi.2
          · exact ih vs2 hg v hv2

/-- C5 (amended): range completeness and satisfaction suppression. A single
active weekly pattern over a range spanning exactly two ISO weeks (with no
persisted events) yields exactly two virtual events, one per week, with ids
"virtual-{patternId}-{periodKey}" and deadlines at each week's Sunday
23:59:59.999 — provided both ISO week-years lie outside 0..99, since the
Date constructor that rebuilds the deadline remaps a two-digit year to
1900+year; and in any call, once a persisted event exists for a (patternId,
periodKey) pair, no emitted virtual event carries that pair. -/
theorem claim_C5 (p : RecurrencePattern) (s e : Int)
    (hw : p.frequency = .weekly) (ha : p.active = true)
    (hspan : startOfISOWeekD (jsDay e) = startOfISOWeekD (jsDay s) + 7)
    (hY1 : ¬(0 ≤ getISOWeekYear (startOfWeekMs s) ∧
      getISOWeekYear (startOfWeekMs s) ≤ 99))
    (hY2 : ¬(0 ≤ getISOWeekYear (startOfWeekMs s + 7 * 86400000) ∧
      getISOWeekYear (startOfWeekMs s + 7 * 86400000) ≤ 99)) :
    (∃ v1 v2, generateVirtualEventsForRange [p] [] s e = .ok [v1, v2] ∧
      v1.id = "virtual-".data ++ p.id ++ "-".data
        ++ weekKeyOf (startOfWeekMs s) ∧
      v1.deadline = some ((startOfISOWeekD (jsDay s) + 7) * 86400000 - 1) ∧
      v2.id = "virtual-".data ++ p.id ++ "-".data
        ++ weekKeyOf (startOfWeekMs s + 7 * 86400000) ∧
      v2.deadline = some ((startOfISOWeekD (jsDay s) + 14) * 86400000 - 1)) ∧
    (∀ ps evs s2 e2 pid pk vs,
      findFirstEvent evs pid pk ≠ none →
      generateVirtualEventsForRange ps evs s2 e2 = .ok vs →
      ∀ v ∈ vs, ¬(v.patternId = pid ∧ v.periodKey = pk)) := by
  constructor
  · have hjd1 : jsDay (startOfWeekMs s) = startOfISOWeekD (jsDay s) := by
      unfold startOfWeekMs jsDay
      omega
    have hjd2 : jsDay (startOfWeekMs s + 7 * 86400000)
        = startOfISOWeekD (jsDay s) + 7 := by
      unfold startOfWeekMs jsDay
      omega
    have hsf := sow_facts (jsDay s)
    have hm1 : startOfISOWeekD (startOfISOWeekD (jsDay s))
        = startOfISOWeekD (jsDay s) := sow_of_monday _ hsf.2.2
    have hm2 : startOfISOWeekD (startOfISOWeekD (jsDay s) + 7)
        = startOfISOWeekD (jsDay s) + 7 := sow_of_monday _ (by omega)
    have hD1 : getPeriodEndDate (weekKeyOf (startOfWeekMs s)) .weekly
        = .ok (some ((startOfISOWeekD (jsDay s) + 7) * 86400000 - 1)) := by
      have h := weeklyEnd_of_key (startOfWeekMs s) hY1
      rw [hjd1, hm1] at h
      exact h
    have hD2 : getPeriodEndDate (weekKeyOf (startOfWeekMs s + 7 * 86400000))
        .weekly
        = .ok (some ((startOfISOWeekD (jsDay s) + 14) * 86400000 - 1)) := by
      have h := weeklyEnd_of_key (startOfWeekMs s + 7 * 86400000) hY2
      rw [hjd2, hm2] at h
      rw [show (startOfISOWeekD (jsDay s) + 7 + 7) * 86400000 - 1
          = (startOfISOWeekD (jsDay s) + 14) * 86400000 - 1 by ring] at h
      exact h
    have hc1 : startOfWeekMs s ≤ endOfWeekMs e := by
      unfold startOfWeekMs endOfWeekMs
      omega
    have hc2 : startOfWeekMs s + 7 * 86400000 ≤ endOfWeekMs e := by
      unfold startOfWeekMs endOfWeekMs
      omega
    have hc3 : ¬(startOfWeekMs s + 7 * 86400000 + 7 * 86400000
        ≤ endOfWeekMs e) := by
      unfold startOfWeekMs endOfWeekMs
      omega
    have hloop : weeklyPeriodsLoop (endOfWeekMs e) (startOfWeekMs s)
        = [(weekKeyOf (startOfWeekMs s), startOfWeekMs s),
           (weekKeyOf (startOfWeekMs s + 7 * 86400000),
            startOfWeekMs s + 7 * 86400000)] := by
      rw [weeklyPeriodsLoop, dif_pos hc1, jsSetDate_add,
        weeklyPeriodsLoop, dif_pos hc2, jsSetDate_add,
        weeklyPeriodsLoop, dif_neg hc3]
    have hv1 : createVirtualEvent p (weekKeyOf (startOfWeekMs s)) p.frequency
        = .ok (VirtualEvent.mk
            ("virtual-".data ++ p.id ++ "-".data ++ weekKeyOf (startOfWeekMs s))
            p.title p.durationMinutes p.id (weekKeyOf (startOfWeekMs s))
            ("recurring".data) p.flexibleScheduling
            (some ((startOfISOWeekD (jsDay s) + 7) * 86400000 - 1)) []) := by
      rw [hw]
      unfold createVirtualEvent
      rw [hD1]
      rfl
    have hv2 : createVirtualEvent p
        (weekKeyOf (startOfWeekMs s + 7 * 86400000)) p.frequency
        = .ok (VirtualEvent.mk
            ("virtual-".data ++ p.id ++ "-".data
              ++ weekKeyOf (startOfWeekMs s + 7 * 86400000))
            p.title p.durationMinutes p.id
            (weekKeyOf (startOfWeekMs s + 7 * 86400000))
            ("recurring".data) p.flexibleScheduling
            (some ((startOfISOWeekD (jsDay s) + 14) * 86400000 - 1)) []) := by
      rw [hw]
      unfold createVirtualEvent
      rw [hD2]
      rfl
    refine ⟨VirtualEvent.mk
        ("virtual-".data ++ p.id ++ "-".data ++ weekKeyOf (startOfWeekMs s))
        p.title p.durationMinutes p.id (weekKeyOf (startOfWeekMs s))
        ("recurring".data) p.flexibleScheduling
        (some ((startOfISOWeekD (jsDay s) + 7) * 86400000 - 1)) [],
      VirtualEvent.mk
        ("virtual-".data ++ p.id ++ "-".data
          ++ weekKeyOf (startOfWeekMs s + 7 * 86400000))
        p.title p.durationMinutes p.id
        (weekKeyOf (startOfWeekMs s + 7 * 86400000))
        ("recurring".data) p.flexibleScheduling
        (some ((startOfISOWeekD (jsDay s) + 14) * 86400000 - 1)) [],
      ?_, rfl, rfl, rfl, rfl⟩
    unfold generateVirtualEventsForRange
    rw [show ([p].filter (fun q => q.active)) = [p] from by simp [ha]]
    rw [genForPatterns, if_neg (by simp [hw])]
    rw [show getPeriodsInRange s e p.frequency
        = weeklyPeriodsLoop (endOfWeekMs e) (startOfWeekMs s) from by
      rw [hw]
      rfl]
    rw [hloop]
    rw [genForPattern, if_neg (by simp [findFirstEvent]),
      if_neg (by simp [hw]), hv1]
    rw [genForPattern, if_neg (by simp [findFirstEvent]),
      if_neg (by simp [hw]), hv2]
    rw [genForPattern]
    rfl
  · intro ps evs s2 e2 pid pk vs hne hgen v hv hand
    obtain ⟨hp1, hp2⟩ := hand
    unfold generateVirtualEventsForRange at hgen
    have hinv := genForPatterns_inv evs s2 e2
      (ps.filter (fun q => q.active)) vs hgen v hv
    rw [hp1, hp2] at hinv
    exact hne hinv

/-- A fixed weekly pattern used as a test vector. -/
def c5pat : RecurrencePattern :=
  ⟨"p2".data, [], .weekly, 1, 60, none, none, none, false, true⟩

theorem claim_C5_witness :
    (∃ v1 v2, generateVirtualEventsForRange [c5pat] []
        (mkDate 2025 9 6) (mkDate 2025 9 13) = .ok [v1, v2] ∧
      v1.id = "virtual-".data ++ c5pat.id ++ "-".data
        ++ weekKeyOf (startOfWeekMs (mkDate 2025 9 6)) ∧
      v1.deadline = some ((startOfISOWeekD (jsDay (mkDate 2025 9 6)) + 7)
        * 86400000 - 1) ∧
      v2.id = "virtual-".data ++ c5pat.id ++ "-".data
        ++ weekKeyOf (startOfWeekMs (mkDate 2025 9 6) + 7 * 86400000) ∧
      v2.deadline = some ((startOfISOWeekD (jsDay (mkDate 2025 9 6)) + 14)
        * 86400000 - 1)) ∧
    (∀ ps evs s2 e2 pid pk vs,
      findFirstEvent evs pid pk ≠ none →
      generateVirtualEventsForRange ps evs s2 e2 = .ok vs →
      ∀ v ∈ vs, ¬(v.patternId = pid ∧ v.periodKey = pk)) :=
  claim_C5 c5pat (mkDate 2025 9 6) (mkDate 2025 9 13) rfl rfl (by decide)
    (by decide) (by decide)

theorem claim_C5_counterexample :
    ∃ v, createVirtualEvent c5pat
        (weekKeyOf (toDays 50 1 15 * 86400000)) .weekly = .ok v ∧
      v.deadline
        ≠ some ((startOfISOWeekD (toDays 50 1 15) + 7) * 86400000 - 1) := by
  refine ⟨VirtualEvent.mk
      ("virtual-".data ++ c5pat.id ++ "-".data
        ++ weekKeyOf (toDays 50 1 15 * 86400000))
      c5pat.title c5pat.durationMinutes c5pat.id
      (weekKeyOf (toDays 50 1 15 * 86400000)) ("recurring".data)
      c5pat.flexibleScheduling
      (some (weekEndDate (getISOWeekYear (toDays 50 1 15 * 86400000))
        (getISOWeek (toDays 50 1 15 * 86400000)))) [], ?_, by decide⟩
  unfold createVirtualEvent
  rw [getPeriodEndDate_weekKey]
  rfl
